import Mathlib

/-!
Verification of the replicated-mcp-server data-validation and API-service
layer.  Go code is shallowly embedded: Go strings are Lean `String`
(with `goLen` for Go's byte-count `len`), `time.Time` is an integer
instant (`GoTime`, zero value `0`), `map[string]string` is an association
list, and fallible operations return `Option`/`Except`.  Network-using
service operations are parameterised by a transport oracle and
additionally return the list of GET request paths they issue.
-/

namespace Repl

/-- UTF-8 byte encoding of a character (standard 1-4 byte scheme). -/
def utf8Bytes (c : Char) : List Nat :=
  let n := c.toNat
  if n < 0x80 then [n]
  else if n < 0x800 then [0xC0 + n / 0x40, 0x80 + n % 0x40]
  else if n < 0x10000 then [0xE0 + n / 0x1000, 0x80 + n / 0x40 % 0x40, 0x80 + n % 0x40]
  else [0xF0 + n / 0x40000, 0x80 + n / 0x1000 % 0x40, 0x80 + n / 0x40 % 0x40, 0x80 + n % 0x40]

/-- Go `len(s)` on a string: the number of UTF-8 bytes. -/
def goLen (s : String) : Nat :=
  (s.data.map (fun c => (utf8Bytes c).length)).sum

/-- Go `strings.Join(elems, sep)`. -/
def goJoin (sep : String) : List String → String
  | [] => ""
  | [x] => x
  | x :: y :: xs => x ++ sep ++ goJoin sep (y :: xs)

/-- The list `sub` occurs contiguously inside `l`. -/
def SubList (sub l : List Char) : Prop :=
  ∃ pre post, l = pre ++ sub ++ post

/-- Boolean test: does `l` start with `p`. -/
def startsWithL : List Char → List Char → Bool
  | [], _ => true
  | _ :: _, [] => false
  | p :: ps, x :: xs => p == x && startsWithL ps xs

/-- Boolean test for contiguous containment, Go `strings.Contains` on rune lists. -/
def hasSubList (sub : List Char) : List Char → Bool
  | [] => sub.isEmpty
  | x :: xs => startsWithL sub (x :: xs) || hasSubList sub xs

/-- Go `strings.Split(s, sep)` for a single-rune separator, on rune lists. -/
def goSplit (sep : Char) : List Char → List (List Char)
  | [] => [[]]
  | x :: xs =>
    let r := goSplit sep xs
    if x = sep then [] :: r
    else (x :: r.headD []) :: r.tail

/-- Go `strings.TrimSpace`. -/
def goTrimSpace (s : String) : String :=
  ⟨((s.data.dropWhile Char.isWhitespace).reverse.dropWhile Char.isWhitespace).reverse⟩

/-- Go `strings.ToLower` (ASCII letters; other runes unchanged in this model). -/
def goToLower (s : String) : String :=
  ⟨s.data.map Char.toLower⟩

/-- Go `strings.Contains(s, sub)`. -/
def goContains (s sub : String) : Bool :=
  hasSubList sub.data s.data

/-- Go `strings.HasPrefix(s, t)`: `s` starts with `t`. -/
def goStartsWith (s t : String) : Bool :=
  s.data.take t.data.length == t.data

/-- Go `strings.HasSuffix(s, t)`: `s` ends with `t`. -/
def goEndsWith (s t : String) : Bool :=
  s.data.reverse.take t.data.length == t.data.reverse

/-- Go `time.Time`, abstracted to an integer instant; the zero value is `0`. -/
abbrev GoTime := Int

/-- Go `t.IsZero()`: the instant is the zero value. -/
def GoTime.isZero (t : GoTime) : Bool := t == (0 : Int)

/-- Go `a.Before(b)`: strictly earlier. -/
def GoTime.before (a b : GoTime) : Bool := decide ((a : Int) < (b : Int))

end Repl

namespace Repl.models

/-! Entity validators, translated from `pkg/models` (application, release,
channel, customer source files). -/

/-- Validation constant from the application model source. -/
def MaxNameLength : Nat := 255

/-- Validation constant from the application model source. -/
def MaxDescriptionLength : Nat := 1000

/-- Character admitted inside a slug: lowercase letter, digit, or hyphen. -/
def slugCharOK (r : Char) : Bool :=
  !((r < 'a' || 'z' < r) && (r < '0' || '9' < r) && r != '-')

/-- Go `isValidSlug` from the application model: non-empty, only
lowercase letters / digits / hyphens, and no leading or trailing hyphen. -/
def isValidSlug (slug : String) : Bool :=
  if slug == "" then false
  else
    slug.data.all slugCharOK &&
      (!(goStartsWith slug "-") && !(goEndsWith slug "-"))

/-- Go `isValidChannelSlug` from the channel model; its body is
character-for-character the same check as `isValidSlug`. -/
def isValidChannelSlug (slug : String) : Bool :=
  if slug == "" then false
  else
    slug.data.all slugCharOK &&
      (!(goStartsWith slug "-") && !(goEndsWith slug "-"))

/-- The slug grammar as stated in the specification: non-empty, drawn
from lowercase letters, digits and hyphens, not starting or ending
with a hyphen. -/
def SlugSpec (s : String) : Prop :=
  s ≠ "" ∧
  (∀ c ∈ s.data, ('a' ≤ c ∧ c ≤ 'z') ∨ ('0' ≤ c ∧ c ≤ '9') ∨ c = '-') ∧
  s.data.head? ≠ some '-' ∧
  s.data.getLast? ≠ some '-'

/-- Numeric identifier of the semver core grammar: `0` or a digit string
with no leading zero (regex `0|[1-9]\d*`). -/
def numericNoLeadZero : List Char → Bool
  | [] => false
  | [c] => c.isDigit
  | c :: d :: rest => c.isDigit && c != '0' && (d :: rest).all Char.isDigit

/-- Character class `[0-9a-zA-Z-]` of the semver regex. -/
def semverIdChar (c : Char) : Bool :=
  c.isDigit || c.isAlpha || c == '-'

/-- One pre-release identifier, regex `0|[1-9]\d*|\d*[a-zA-Z-][0-9a-zA-Z-]*`:
non-empty over `[0-9a-zA-Z-]`, and an all-digit identifier may not have a
leading zero. -/
def preReleaseIdent (l : List Char) : Bool :=
  !l.isEmpty && l.all semverIdChar &&
    (if l.all Char.isDigit then numericNoLeadZero l else true)

/-- One build identifier, regex `[0-9a-zA-Z-]+`. -/
def buildIdent (l : List Char) : Bool :=
  !l.isEmpty && l.all semverIdChar

/-- Matcher for the release model's `semVerRegex`
`^(0|[1-9]\d*)\.(0|[1-9]\d*)\.(0|[1-9]\d*)(?:-(pre))?(?:\+(build))?$`:
the build part follows the first `+`, the pre-release part follows the
first `-` before that, and the remainder must be `MAJOR.MINOR.PATCH`. -/
def semverMatch (l : List Char) : Bool :=
  let plusSplit := l.span (fun c => c ≠ '+')
  let buildOK :=
    match plusSplit.2 with
    | [] => true
    | _ :: b => (goSplit '.' b).all buildIdent
  let dashSplit := plusSplit.1.span (fun c => c ≠ '-')
  let preOK :=
    match dashSplit.2 with
    | [] => true
    | _ :: p => (goSplit '.' p).all preReleaseIdent
  let coreOK :=
    match goSplit '.' dashSplit.1 with
    | [x, y, z] => numericNoLeadZero x && numericNoLeadZero y && numericNoLeadZero z
    | _ => false
  coreOK && preOK && buildOK

/-- Go `isValidSemanticVersion` from the release model. -/
def isValidSemanticVersion (version : String) : Bool :=
  semverMatch version.data

/-- Constant `EmailParts` from the customer model. -/
def EmailParts : Nat := 2

/-- Go `isValidEmail` from the customer model: split on `@`, demand
exactly two non-empty parts, and a dot somewhere in the domain part. -/
def isValidEmail (email : String) : Bool :=
  match goSplit '@' email.data with
  | [localPart, domain] =>
    !localPart.isEmpty && !domain.isEmpty && hasSubList ['.'] domain
  | _ => false

/-- The email acceptance condition in the specification's words: exactly
one `@`, non-empty parts on both sides, at least one dot in the domain. -/
def EmailSpec (s : String) : Prop :=
  ∃ l d : List Char,
    s.data = l ++ '@' :: d ∧ '@' ∉ l ∧ '@' ∉ d ∧
    l ≠ [] ∧ d ≠ [] ∧ '.' ∈ d

end Repl.models

namespace Repl

lemma subList_of_left {s l₁ : List Char} (l₂ : List Char) (h : SubList s l₁) :
    SubList s (l₁ ++ l₂) := by
  obtain ⟨p, q, rfl⟩ := h
  exact ⟨p, q ++ l₂, by simp⟩

lemma subList_of_right (l₁ : List Char) {s l₂ : List Char} (h : SubList s l₂) :
    SubList s (l₁ ++ l₂) := by
  obtain ⟨p, q, rfl⟩ := h
  exact ⟨l₁ ++ p, q, by simp⟩

lemma subList_refl (l : List Char) : SubList l l := ⟨[], [], by simp⟩

/-- Every joined element occurs contiguously in the join. -/
lemma subList_goJoin {m : String} {l : List String} (sep : String) (hm : m ∈ l) :
    SubList m.data (goJoin sep l).data := by
  induction l with
  | nil => cases hm
  | cons x xs ih =>
    rcases List.mem_cons.mp hm with rfl | hmem
    · cases xs with
      | nil => exact subList_refl _
      | cons y ys =>
        show SubList m.data (m ++ sep ++ goJoin sep (y :: ys)).data
        rw [String.data_append, String.data_append]
        exact subList_of_left _ (subList_of_left _ (subList_refl _))
    · cases xs with
      | nil => cases hmem
      | cons y ys =>
        show SubList m.data (x ++ sep ++ goJoin sep (y :: ys)).data
        rw [String.data_append]
        exact subList_of_right _ (ih hmem)

lemma goSplit_ne_nil (c : Char) (l : List Char) : goSplit c l ≠ [] := by
  induction l with
  | nil => simp [goSplit]
  | cons x xs ih =>
    by_cases h : x = c <;> simp [goSplit, h]

/-- Helper: `goSplit` of a cons beginning with the separator. -/
lemma goSplit_cons_sep (c : Char) (xs : List Char) :
    goSplit c (c :: xs) = [] :: goSplit c xs := by
  simp [goSplit]

/-- Helper: `goSplit` of a cons not beginning with the separator. -/
lemma goSplit_cons_ne {c x : Char} (xs : List Char) (h : x ≠ c) :
    goSplit c (x :: xs) =
      (x :: (goSplit c xs).headD []) :: (goSplit c xs).tail := by
  simp [goSplit, h]

lemma goSplit_eq_single {c : Char} {l a : List Char} :
    goSplit c l = [a] ↔ l = a ∧ c ∉ a := by
  induction l generalizing a with
  | nil =>
    constructor
    · intro h
      injection h with h1 h2
      subst h1
      exact ⟨rfl, by simp⟩
    · rintro ⟨rfl, -⟩
      rfl
  | cons x xs ih =>
    by_cases h : x = c
    · subst h
      rw [goSplit_cons_sep]
      constructor
      · intro he
        injection he with h1 h2
        exact absurd h2 (goSplit_ne_nil x xs)
      · rintro ⟨rfl, hc⟩
        exact absurd (List.mem_cons_self x xs) hc
    · obtain ⟨h0, t, ht⟩ : ∃ h0 t, goSplit c xs = h0 :: t := by
        rcases he : goSplit c xs with _ | ⟨h0, t⟩
        · exact absurd he (goSplit_ne_nil c xs)
        · exact ⟨h0, t, rfl⟩
      rw [goSplit_cons_ne xs h, ht]
      simp only [List.headD_cons, List.tail_cons]
      constructor
      · intro he
        injection he with h1 h2
        subst h2
        have hsingle : goSplit c xs = [h0] := ht
        obtain ⟨hxs, hch⟩ := ih.mp hsingle
        subst hxs
        refine ⟨h1, ?_⟩
        rw [← h1]
        simp only [List.mem_cons, not_or]
        exact ⟨fun hc => h hc.symm, hch⟩
      · rintro ⟨rfl, hc⟩
        simp only [List.mem_cons, not_or] at hc
        have : goSplit c xs = [xs] := ih.mpr ⟨rfl, hc.2⟩
        rw [ht] at this
        injection this with h1 h2
        subst h1; subst h2
        rfl

lemma goSplit_eq_pair {c : Char} {l a b : List Char} :
    goSplit c l = [a, b] ↔ l = a ++ c :: b ∧ c ∉ a ∧ c ∉ b := by
  induction l generalizing a with
  | nil =>
    constructor
    · intro h
      injection h with h1 h2
      cases h2
    · rintro ⟨h, -, -⟩
      exact absurd h (by simp)
  | cons x xs ih =>
    by_cases h : x = c
    · subst h
      rw [goSplit_cons_sep]
      constructor
      · intro he
        injection he with h1 h2
        subst h1
        obtain ⟨hxs, hcb⟩ := goSplit_eq_single.mp h2
        subst hxs
        exact ⟨rfl, by simp, hcb⟩
      · rintro ⟨he, hca, hcb⟩
        have ha : a = [] := by
          cases a with
          | nil => rfl
          | cons y ys =>
            injection he with h1 h2
            subst h1
            exact absurd (List.mem_cons_self _ _) hca
        subst ha
        injection he with h1 h2
        subst h2
        rw [goSplit_eq_single.mpr ⟨rfl, hcb⟩]
    · obtain ⟨h0, t, ht⟩ : ∃ h0 t, goSplit c xs = h0 :: t := by
        rcases he : goSplit c xs with _ | ⟨h0, t⟩
        · exact absurd he (goSplit_ne_nil c xs)
        · exact ⟨h0, t, rfl⟩
      rw [goSplit_cons_ne xs h, ht]
      simp only [List.headD_cons, List.tail_cons]
      constructor
      · intro he
        injection he with h1 h2
        subst h2
        have hpair : goSplit c xs = [h0, b] := ht
        obtain ⟨hxs, hch, hcb⟩ := ih.mp hpair
        subst hxs
        refine ⟨by rw [← h1]; rfl, ?_, hcb⟩
        rw [← h1]
        simp only [List.mem_cons, not_or]
        exact ⟨fun hc => h hc.symm, hch⟩
      · rintro ⟨he, hca, hcb⟩
        cases a with
        | nil =>
          injection he with h1 h2
          exact absurd h1 h
        | cons y ys =>
          injection he with h1 h2
          subst h1
          simp only [List.mem_cons, not_or] at hca
          have h2 : goSplit c xs = [ys, b] := ih.mpr ⟨h2, hca.2, hcb⟩
          rw [ht] at h2
          injection h2 with h3 h4
          subst h3; subst h4
          rfl

lemma hasSubList_singleton {c : Char} {l : List Char} :
    hasSubList [c] l = true ↔ c ∈ l := by
  induction l with
  | nil => simp [hasSubList]
  | cons x xs ih =>
    simp only [hasSubList, startsWithL, Bool.or_eq_true, Bool.and_eq_true, beq_iff_eq,
      List.mem_cons, ih]
    tauto

end Repl

namespace Repl.models

lemma slugCharOK_iff (c : Char) :
    slugCharOK c = true ↔ (('a' ≤ c ∧ c ≤ 'z') ∨ ('0' ≤ c ∧ c ≤ '9') ∨ c = '-') := by
  simp only [slugCharOK, Bool.not_eq_true']
  simp only [Bool.and_eq_false_iff, Bool.or_eq_false_iff, decide_eq_false_iff_not, not_lt,
    bne_eq_false_iff_eq]
  tauto

lemma take_one_eq_singleton {l : List Char} {c : Char} :
    (l.take 1 == [c]) = true ↔ l.head? = some c := by
  cases l <;> simp [List.take]

lemma goStartsWith_dash (s : String) :
    goStartsWith s "-" = true ↔ s.data.head? = some '-' := by
  have : ("-" : String).data = ['-'] := rfl
  rw [goStartsWith, this]
  exact take_one_eq_singleton

lemma goEndsWith_dash (s : String) :
    goEndsWith s "-" = true ↔ s.data.getLast? = some '-' := by
  have : ("-" : String).data = ['-'] := rfl
  rw [goEndsWith, this]
  show (s.data.reverse.take 1 == ['-']) = true ↔ _
  rw [take_one_eq_singleton, List.head?_reverse]

lemma isValidSlug_iff_spec (s : String) : isValidSlug s = true ↔ SlugSpec s := by
  by_cases h : s = ""
  · subst h
    constructor
    · intro hh
      simp [isValidSlug] at hh
    · rintro ⟨hne, -⟩
      cases hne rfl
  · constructor
    · intro hh
      rw [isValidSlug, if_neg (by simp [h])] at hh
      simp only [Bool.and_eq_true, List.all_eq_true, Bool.not_eq_true'] at hh
      obtain ⟨hall, hpre, hsuf⟩ := hh
      refine ⟨h, fun c hc => (slugCharOK_iff c).mp (hall c hc), ?_, ?_⟩
      · intro hcon
        have := (goStartsWith_dash s).mpr hcon
        rw [hpre] at this
        cases this
      · intro hcon
        have := (goEndsWith_dash s).mpr hcon
        rw [hsuf] at this
        cases this
    · rintro ⟨-, hall, hpre, hsuf⟩
      rw [isValidSlug, if_neg (by simp [h])]
      simp only [Bool.and_eq_true, List.all_eq_true, Bool.not_eq_true']
      refine ⟨fun c hc => (slugCharOK_iff c).mpr (hall c hc), ?_, ?_⟩
      · cases hb : goStartsWith s "-" with
        | false => rfl
        | true => exact absurd ((goStartsWith_dash s).mp hb) hpre
      · cases hb : goEndsWith s "-" with
        | false => rfl
        | true => exact absurd ((goEndsWith_dash s).mp hb) hsuf

lemma isValidEmail_iff_spec (s : String) : isValidEmail s = true ↔ EmailSpec s := by
  rw [isValidEmail, EmailSpec]
  constructor
  · intro h
    rcases hs : goSplit '@' s.data with _ | ⟨a, _ | ⟨b, _ | ⟨c, t⟩⟩⟩ <;> rw [hs] at h
    · cases h
    · cases h
    · obtain ⟨hdec, hna, hnb⟩ := goSplit_eq_pair.mp hs
      simp only [Bool.and_eq_true, Bool.not_eq_true'] at h
      obtain ⟨⟨ha, hb⟩, hdot⟩ := h
      refine ⟨a, b, hdec, hna, hnb, ?_, ?_, hasSubList_singleton.mp hdot⟩
      · intro hh; subst hh; simp at ha
      · intro hh; subst hh; simp at hb
    · cases h
  · rintro ⟨l, d, hdec, hnl, hnd, hl, hd, hdot⟩
    have hs : goSplit '@' s.data = [l, d] := goSplit_eq_pair.mpr ⟨hdec, hnl, hnd⟩
    rw [hs]
    simp only [Bool.and_eq_true, Bool.not_eq_true']
    refine ⟨⟨?_, ?_⟩, hasSubList_singleton.mpr hdot⟩
    · cases l with
      | nil => cases hl rfl
      | cons x xs => rfl
    · cases d with
      | nil => cases hd rfl
      | cons x xs => rfl

/-! The four entity structures and their `Validate` methods, translated
from the model source files.  `Validate` returns `none` for Go `nil`
and `some errText` for a non-nil error. -/

/-- Constant from the shared key/value-map validation code. -/
def MaxKeyLength : Nat := 100

/-- Constant from the shared key/value-map validation code. -/
def MaxValueLength : Nat := 500

/-- Violation messages for one key/value map, mirroring the per-entry
loop shared by the release metadata and customer map validations (three
independent checks per entry, in source order). -/
def kvErrors (emptyMsg keyMsg valMsg : String) :
    List (String × String) → List String
  | [] => []
  | (k, v) :: rest =>
    ((if k = "" then [emptyMsg] else []) ++
      (if goLen k > MaxKeyLength then [keyMsg] else []) ++
      (if goLen v > MaxValueLength then [valMsg] else [])) ++
    kvErrors emptyMsg keyMsg valMsg rest

/-- Go struct `models.Application`. -/
structure Application where
  ID : String
  Name : String
  Slug : String
  TeamID : String
  TeamName : String
  CreatedAt : GoTime
  UpdatedAt : GoTime
  Description : String
  Icon : String
  IsActive : Bool

/-- The list of violation messages collected by `Application.Validate`,
in source order. -/
def Application.validateErrors (a : Application) : List String :=
  (if a.ID = "" then ["application ID is required"] else []) ++
  (if a.Name = "" then ["application name is required"]
   else if goLen a.Name > MaxNameLength then
     ["application name must be 255 characters or less"]
   else []) ++
  (if a.Slug = "" then ["application slug is required"]
   else if ¬(isValidSlug a.Slug = true) then
     ["application slug must contain only lowercase letters, numbers, and hyphens"]
   else []) ++
  (if a.TeamID = "" then ["team ID is required"] else []) ++
  (if a.CreatedAt = 0 then ["created_at timestamp is required"] else []) ++
  (if a.UpdatedAt = 0 then ["updated_at timestamp is required"] else []) ++
  (if ¬(a.CreatedAt = 0) ∧ ¬(a.UpdatedAt = 0) ∧ a.UpdatedAt < a.CreatedAt then
     ["updated_at must be equal to or after created_at"]
   else []) ++
  (if a.Description ≠ "" ∧ goLen a.Description > MaxDescriptionLength then
     ["application description must be 1000 characters or less"]
   else [])

/-- Go `Application.Validate`. -/
def Application.Validate (a : Application) : Option String :=
  let errors := a.validateErrors
  if errors.length > 0 then
    some ("application validation errors:\n  - " ++ goJoin "\n  - " errors)
  else none

/-- Constant from the release model source. -/
def MaxNotesLength : Nat := 10000

/-- Go struct `models.Release`. -/
structure Release where
  ID : String
  ApplicationID : String
  Version : String
  Sequence : Int
  CreatedAt : GoTime
  UpdatedAt : GoTime
  ReleasedAt : Option GoTime
  Notes : String
  Metadata : List (String × String)
  IsRequired : Bool
  IsPrerelease : Bool
  Status : String
  Config : String

/-- Release status constants, in source order. -/
def validReleaseStatuses : List String :=
  ["draft", "released", "archived", "superseded"]

/-- Go `isValidReleaseStatus`: linear scan of the valid statuses. -/
def isValidReleaseStatus (status : String) : Bool :=
  validReleaseStatuses.any (fun valid => status == valid)

/-- The list of violation messages collected by `Release.Validate`, in
source order. -/
def Release.validateErrors (r : Release) : List String :=
  (if r.ID = "" then ["release ID is required"] else []) ++
  (if r.ApplicationID = "" then ["application ID is required"] else []) ++
  (if r.Version = "" then ["release version is required"]
   else if ¬(isValidSemanticVersion r.Version = true) then
     ["release version must follow semantic versioning format (e.g., 1.0.0)"]
   else []) ++
  (if r.Sequence < 0 then ["release sequence must be non-negative"] else []) ++
  (if r.Status = "" then ["release status is required"]
   else if ¬(isValidReleaseStatus r.Status = true) then
     ["invalid release status \x27" ++ r.Status ++ "\x27. Valid statuses are: " ++
       goJoin ", " validReleaseStatuses]
   else []) ++
  (if r.CreatedAt = 0 then ["created_at timestamp is required"] else []) ++
  (if r.UpdatedAt = 0 then ["updated_at timestamp is required"] else []) ++
  (if ¬(r.CreatedAt = 0) ∧ ¬(r.UpdatedAt = 0) ∧ r.UpdatedAt < r.CreatedAt then
     ["updated_at must be equal to or after created_at"]
   else []) ++
  (r.ReleasedAt.elim [] fun t =>
    if t < r.CreatedAt then ["released_at must be equal to or after created_at"] else []) ++
  (if r.Status = "released" ∧ r.ReleasedAt = none then
     ["released_at is required when status is \x27released\x27"]
   else []) ++
  (if r.Notes ≠ "" ∧ goLen r.Notes > MaxNotesLength then
     ["release notes must be 10000 characters or less"]
   else []) ++
  kvErrors "metadata keys cannot be empty" "metadata keys must be 100 characters or less"
    "metadata values must be 500 characters or less" r.Metadata

/-- Go `Release.Validate`. -/
def Release.Validate (r : Release) : Option String :=
  let errors := r.validateErrors
  if errors.length > 0 then
    some ("release validation errors:\n  - " ++ goJoin "\n  - " errors)
  else none

/-- Constant from the channel model source. -/
def MaxChannelNameLength : Nat := 100

/-- Constant from the channel model source. -/
def MaxChannelDescriptionLength : Nat := 500

/-- Go struct `models.Channel`. -/
structure Channel where
  ID : String
  ApplicationID : String
  Name : String
  Description : String
  ReleaseID : String
  ReleaseSequence : Int
  CreatedAt : GoTime
  UpdatedAt : GoTime
  ArchivedAt : Option GoTime
  IsDefault : Bool
  IsArchived : Bool
  ChannelSlug : String

/-- Go `Channel.validateBasicFields`. -/
def Channel.validateBasicFields (c : Channel) : List String :=
  (if c.ID = "" then ["channel ID is required"] else []) ++
  (if c.ApplicationID = "" then ["application ID is required"] else []) ++
  (if c.Name = "" then ["channel name is required"]
   else if goLen c.Name > MaxChannelNameLength then
     ["channel name must be 100 characters or less"]
   else []) ++
  (if c.ChannelSlug = "" then ["channel slug is required"]
   else if ¬(isValidChannelSlug c.ChannelSlug = true) then
     ["channel slug must contain only lowercase letters, numbers, and hyphens"]
   else [])

/-- Go `Channel.validateTimestamps`. -/
def Channel.validateTimestamps (c : Channel) : List String :=
  (if c.CreatedAt = 0 then ["created_at timestamp is required"] else []) ++
  (if c.UpdatedAt = 0 then ["updated_at timestamp is required"] else []) ++
  (if ¬(c.CreatedAt = 0) ∧ ¬(c.UpdatedAt = 0) ∧ c.UpdatedAt < c.CreatedAt then
     ["updated_at must be equal to or after created_at"]
   else []) ++
  (c.ArchivedAt.elim [] fun t =>
    (if t < c.CreatedAt then ["archived_at must be equal to or after created_at"] else []) ++
    (if c.IsArchived = false then ["is_archived must be true when archived_at is set"] else [])) ++
  (if c.IsArchived = true ∧ c.ArchivedAt = none then
     ["archived_at is required when is_archived is true"]
   else [])

/-- Go `Channel.validateReleaseRelationship`. -/
def Channel.validateReleaseRelationship (c : Channel) : List String :=
  (if c.ReleaseID ≠ "" ∧ c.ReleaseSequence ≤ 0 then
     ["release_sequence must be positive when release_id is provided"]
   else []) ++
  (if c.ReleaseID = "" ∧ c.ReleaseSequence > 0 then
     ["release_id is required when release_sequence is provided"]
   else [])

/-- Go `Channel.validateOptionalFields`. -/
def Channel.validateOptionalFields (c : Channel) : List String :=
  if c.Description ≠ "" ∧ goLen c.Description > MaxChannelDescriptionLength then
    ["channel description must be 500 characters or less"]
  else []

/-- The list of violation messages collected by `Channel.Validate`. -/
def Channel.validateErrors (c : Channel) : List String :=
  c.validateBasicFields ++ c.validateTimestamps ++
    c.validateReleaseRelationship ++ c.validateOptionalFields

/-- Go `Channel.Validate`. -/
def Channel.Validate (c : Channel) : Option String :=
  let errors := c.validateErrors
  if errors.length > 0 then
    some ("channel validation errors:\n  - " ++ goJoin "\n  - " errors)
  else none

/-- Constant from the customer model source. -/
def MaxCustomerNameLength : Nat := 255

/-- Go struct `models.Customer`. -/
structure Customer where
  ID : String
  ApplicationID : String
  Name : String
  Email : String
  ChannelID : String
  ChannelName : String
  CreatedAt : GoTime
  UpdatedAt : GoTime
  ArchivedAt : Option GoTime
  ExpiresAt : Option GoTime
  Type' : String
  IsArchived : Bool
  IsGitOpsSupported : Bool
  LicenseID : String
  LicenseType : String
  Entitlements : List (String × String)
  CustomFields : List (String × String)

/-- Customer type constants, in source order. -/
def validCustomerTypes : List String :=
  ["trial", "paid", "community", "development"]

/-- License type constants, in source order. -/
def validLicenseTypes : List String :=
  ["trial", "paid", "community", "development", "embedded"]

/-- Go `isValidCustomerType`. -/
def isValidCustomerType (customerType : String) : Bool :=
  validCustomerTypes.any (fun valid => customerType == valid)

/-- Go `isValidLicenseType`. -/
def isValidLicenseType (licenseType : String) : Bool :=
  validLicenseTypes.any (fun valid => licenseType == valid)

/-- The list of violation messages collected by `Customer.Validate`, in
source order. -/
def Customer.validateErrors (c : Customer) : List String :=
  (if c.ID = "" then ["customer ID is required"] else []) ++
  (if c.ApplicationID = "" then ["application ID is required"] else []) ++
  (if c.Name = "" then ["customer name is required"]
   else if goLen c.Name > MaxCustomerNameLength then
     ["customer name must be 255 characters or less"]
   else []) ++
  (if c.Email ≠ "" ∧ ¬(isValidEmail c.Email = true) then
     ["customer email must be a valid email address"]
   else []) ++
  (if c.ChannelID = "" then ["channel ID is required"] else []) ++
  (if c.Type' = "" then ["customer type is required"]
   else if ¬(isValidCustomerType c.Type' = true) then
     ["invalid customer type \x27" ++ c.Type' ++ "\x27. Valid types are: " ++
       goJoin ", " validCustomerTypes]
   else []) ++
  (if c.LicenseID = "" then ["license ID is required"] else []) ++
  (if c.LicenseType = "" then ["license type is required"]
   else if ¬(isValidLicenseType c.LicenseType = true) then
     ["invalid license type \x27" ++ c.LicenseType ++ "\x27. Valid types are: " ++
       goJoin ", " validLicenseTypes]
   else []) ++
  (if c.CreatedAt = 0 then ["created_at timestamp is required"] else []) ++
  (if c.UpdatedAt = 0 then ["updated_at timestamp is required"] else []) ++
  (if ¬(c.CreatedAt = 0) ∧ ¬(c.UpdatedAt = 0) ∧ c.UpdatedAt < c.CreatedAt then
     ["updated_at must be equal to or after created_at"]
   else []) ++
  (c.ArchivedAt.elim [] fun t =>
    (if t < c.CreatedAt then ["archived_at must be equal to or after created_at"] else []) ++
    (if c.IsArchived = false then ["is_archived must be true when archived_at is set"] else [])) ++
  (if c.IsArchived = true ∧ c.ArchivedAt = none then
     ["archived_at is required when is_archived is true"]
   else []) ++
  (c.ExpiresAt.elim [] fun t =>
    if t < c.CreatedAt then ["expires_at must be equal to or after created_at"] else []) ++
  kvErrors "entitlement keys cannot be empty" "entitlement keys must be 100 characters or less"
    "entitlement values must be 500 characters or less" c.Entitlements ++
  kvErrors "custom field keys cannot be empty" "custom field keys must be 100 characters or less"
    "custom field values must be 500 characters or less" c.CustomFields

/-- Go `Customer.Validate`. -/
def Customer.Validate (c : Customer) : Option String :=
  let errors := c.validateErrors
  if errors.length > 0 then
    some ("customer validation errors:\n  - " ++ goJoin "\n  - " errors)
  else none

end Repl.models

namespace Repl.models

/-- C7: the Application slug validator and the Channel slug validator
accept exactly the same strings, and both accept exactly the non-empty
strings over lowercase letters, digits and hyphens that neither start
nor end with a hyphen. -/
theorem slug_validators_agree_and_match_grammar (s : String) :
    isValidSlug s = isValidChannelSlug s ∧ (isValidSlug s = true ↔ SlugSpec s) :=
  ⟨rfl, isValidSlug_iff_spec s⟩

/-- C8: the semantic-version validator accepts the three well-formed
examples and rejects the three malformed ones (missing patch part,
leading `v`, leading zero). -/
theorem semver_validator_examples :
    isValidSemanticVersion "1.0.0" = true ∧
    isValidSemanticVersion "1.0.0-beta.1" = true ∧
    isValidSemanticVersion "1.0.0+20130313144700" = true ∧
    isValidSemanticVersion "1.0" = false ∧
    isValidSemanticVersion "v1.0.0" = false ∧
    isValidSemanticVersion "01.0.0" = false := by
  refine ⟨?_, ?_, ?_, ?_, ?_, ?_⟩ <;> decide

/-- C9: the email validator accepts exactly the strings with one `@`,
non-empty local and domain parts, and a dot in the domain; in particular
it accepts and rejects the six listed examples accordingly. -/
theorem email_validator_characterization :
    (∀ s : String, isValidEmail s = true ↔ EmailSpec s) ∧
    isValidEmail "test@example.com" = true ∧
    isValidEmail "testexample.com" = false ∧
    isValidEmail "test@@example.com" = false ∧
    isValidEmail "test@" = false ∧
    isValidEmail "@example.com" = false ∧
    isValidEmail "test@example" = false :=
  ⟨isValidEmail_iff_spec, by decide, by decide, by decide, by decide, by decide, by decide⟩

end Repl.models

namespace Repl.models

/-! Generic lemmas about the error-collection and error-rendering
shape shared by all four validators. -/

lemma ite_singleton_eq_nil {c : Prop} [Decidable c] {m : String} :
    (if c then [m] else ([] : List String)) = [] ↔ ¬c := by
  split <;> simp_all

lemma ite_pair_eq_nil {c₁ c₂ : Prop} [Decidable c₁] [Decidable c₂] {m₁ m₂ : String} :
    (if c₁ then [m₁] else if c₂ then [m₂] else ([] : List String)) = [] ↔ ¬c₁ ∧ ¬c₂ := by
  split
  · simp_all
  · rw [ite_singleton_eq_nil]
    simp_all

lemma mkValidate_eq_none_iff (pfx : String) (errors : List String) :
    (if errors.length > 0 then some (pfx ++ goJoin "\n  - " errors) else none) = none ↔
      errors = [] := by
  rcases errors with _ | ⟨x, xs⟩ <;> simp

lemma mkValidate_mem_text (pfx : String) (errors : List String) {m : String}
    (hm : m ∈ errors) :
    ∃ t, (if errors.length > 0 then some (pfx ++ goJoin "\n  - " errors) else none) = some t ∧
      SubList m.data t.data := by
  have hne : errors.length > 0 := List.length_pos.mpr (List.ne_nil_of_mem hm)
  refine ⟨_, by rw [if_pos hne], ?_⟩
  rw [String.data_append]
  exact subList_of_right _ (subList_goJoin _ hm)

lemma seg_single (b : Bool) (m : String) :
    ((([(b, m)] : List (Bool × String)).filter Prod.fst).map Prod.snd) =
      if b = true then [m] else [] := by
  cases b <;> rfl

lemma seg_pair (b₁ b₂ : Bool) (m₁ m₂ : String) :
    ((([(b₁, m₁), (!b₁ && b₂, m₂)] : List (Bool × String)).filter Prod.fst).map Prod.snd) =
      if b₁ = true then [m₁] else if b₂ = true then [m₂] else [] := by
  cases b₁ <;> cases b₂ <;> rfl

lemma seg_triple (b₁ b₂ b₃ : Bool) (m₁ m₂ m₃ : String) :
    ((([(b₁, m₁), (b₂, m₂), (b₃, m₃)] : List (Bool × String)).filter Prod.fst).map Prod.snd) =
      (if b₁ = true then [m₁] else []) ++ (if b₂ = true then [m₂] else []) ++
        (if b₃ = true then [m₃] else []) := by
  cases b₁ <;> cases b₂ <;> cases b₃ <;> rfl

/-- Violation flags and messages for one key/value map, one triple of
checks per entry, mirroring `kvErrors`. -/
def kvChecks (emptyMsg keyMsg valMsg : String) (l : List (String × String)) :
    List (Bool × String) :=
  l.flatMap fun p =>
    [(decide (p.1 = ""), emptyMsg),
     (decide (goLen p.1 > MaxKeyLength), keyMsg),
     (decide (goLen p.2 > MaxValueLength), valMsg)]

lemma kvChecks_filter_eq (em km vm : String) (l : List (String × String)) :
    (((kvChecks em km vm l).filter Prod.fst).map Prod.snd) = kvErrors em km vm l := by
  induction l with
  | nil => rfl
  | cons p rest ih =>
    rw [kvChecks, List.flatMap_cons, List.filter_append, List.map_append]
    have hrest : (rest.flatMap fun p =>
        [(decide (p.1 = ""), em), (decide (goLen p.1 > MaxKeyLength), km),
         (decide (goLen p.2 > MaxValueLength), vm)]) = kvChecks em km vm rest := rfl
    rw [hrest, ih, kvErrors, seg_triple]
    simp only [decide_eq_true_eq]

lemma kvErrors_eq_nil_iff (em km vm : String) (l : List (String × String)) :
    kvErrors em km vm l = [] ↔
      ∀ p ∈ l, p.1 ≠ "" ∧ goLen p.1 ≤ MaxKeyLength ∧ goLen p.2 ≤ MaxValueLength := by
  induction l with
  | nil => simp [kvErrors]
  | cons p rest ih =>
    rw [kvErrors]
    simp only [List.append_eq_nil, ite_singleton_eq_nil, ih, List.mem_cons, not_lt]
    constructor
    · rintro ⟨⟨⟨h1, h2⟩, h3⟩, h4⟩
      rintro q (rfl | hq)
      · exact ⟨h1, h2, h3⟩
      · exact h4 q hq
    · intro h
      obtain ⟨h1, h2, h3⟩ := h p (Or.inl rfl)
      exact ⟨⟨⟨h1, h2⟩, h3⟩, fun q hq => h q (Or.inr hq)⟩

/-! Application: specification invariants, checks table, and the
relation between `Validate` and them. -/

/-- The Application invariants exactly as listed in specification
section 3. -/
def Application.Spec3 (a : Application) : Prop :=
  a.ID ≠ "" ∧ a.Name ≠ "" ∧ a.Slug ≠ "" ∧ a.TeamID ≠ "" ∧
  SlugSpec a.Slug ∧ goLen a.Name ≤ MaxNameLength ∧
  goLen a.Description ≤ MaxDescriptionLength ∧ a.CreatedAt ≤ a.UpdatedAt

instance (a : Application) : Decidable a.Spec3 := by
  rw [Application.Spec3, SlugSpec]
  infer_instance

/-- Violation-flag / message table for `Application.Validate`, one entry
per invariant check, in source order. -/
def Application.checks (a : Application) : List (Bool × String) :=
  [(decide (a.ID = ""), "application ID is required")] ++
  [(decide (a.Name = ""), "application name is required"),
   (!decide (a.Name = "") && decide (goLen a.Name > MaxNameLength),
     "application name must be 255 characters or less")] ++
  [(decide (a.Slug = ""), "application slug is required"),
   (!decide (a.Slug = "") && !isValidSlug a.Slug,
     "application slug must contain only lowercase letters, numbers, and hyphens")] ++
  [(decide (a.TeamID = ""), "team ID is required")] ++
  [(decide (a.CreatedAt = 0), "created_at timestamp is required")] ++
  [(decide (a.UpdatedAt = 0), "updated_at timestamp is required")] ++
  [(!decide (a.CreatedAt = 0) && (!decide (a.UpdatedAt = 0) &&
      decide (a.UpdatedAt < a.CreatedAt)),
     "updated_at must be equal to or after created_at")] ++
  [(decide (a.Description ≠ "") && decide (goLen a.Description > MaxDescriptionLength),
     "application description must be 1000 characters or less")]

lemma Application.validateErrors_eq_checks_app (a : Application) :
    a.validateErrors = ((a.checks.filter Prod.fst).map Prod.snd) := by
  rw [Application.validateErrors, Application.checks]
  simp only [List.filter_append, List.map_append, seg_single, seg_pair,
    decide_eq_true_eq, Bool.and_eq_true, Bool.not_eq_true', decide_eq_false_iff_not,
    Bool.not_eq_true]

lemma Application.validateErrors_eq_nil_iff_app (a : Application) :
    a.validateErrors = [] ↔ a.Spec3 ∧ a.CreatedAt ≠ 0 ∧ a.UpdatedAt ≠ 0 := by
  rw [Application.validateErrors, Application.Spec3]
  simp only [List.append_eq_nil, ite_singleton_eq_nil, ite_pair_eq_nil, not_and, not_not,
    not_lt, isValidSlug_iff_spec]
  have hdesc : a.Description = "" → goLen a.Description ≤ MaxDescriptionLength := by
    intro hd
    rw [hd]
    exact Nat.zero_le _
  tauto

end Repl.models

namespace Repl.models

lemma any_beq_iff_mem {x : String} {l : List String} :
    (l.any fun v => x == v) = true ↔ x ∈ l := by
  induction l with
  | nil => simp
  | cons y ys ih => simp [List.any_cons, beq_iff_eq, List.mem_cons, ih]

lemma isValidReleaseStatus_iff_mem (s : String) :
    isValidReleaseStatus s = true ↔ s ∈ validReleaseStatuses := by
  rw [isValidReleaseStatus]
  exact any_beq_iff_mem

lemma optIte_eq_nil {o : Option GoTime} {x : GoTime} {m : String} :
    (o.elim ([] : List String) fun t => if t < x then [m] else []) = [] ↔ ∀ t ∈ o, x ≤ t := by
  cases o <;> simp [ite_singleton_eq_nil, not_lt]

lemma archived_seg_eq_nil {o : Option GoTime} {x : GoTime} {b : Bool} {m₁ m₂ : String} :
    (o.elim ([] : List String) fun t =>
      (if t < x then [m₁] else []) ++ (if b = false then [m₂] else [])) = [] ↔
      (∀ t ∈ o, x ≤ t) ∧ (o ≠ none → b = true) := by
  cases o <;> simp [ite_singleton_eq_nil, not_lt, Bool.not_eq_false]

/-! Release: specification invariants, checks table, relation to
`Validate`. -/

/-- The Release invariants exactly as listed in specification
section 3. -/
def Release.Spec3 (r : Release) : Prop :=
  r.ID ≠ "" ∧ r.ApplicationID ≠ "" ∧ isValidSemanticVersion r.Version = true ∧
  0 ≤ r.Sequence ∧ r.Status ∈ validReleaseStatuses ∧ r.CreatedAt ≤ r.UpdatedAt ∧
  (∀ t ∈ r.ReleasedAt, r.CreatedAt ≤ t) ∧
  (r.Status = "released" → r.ReleasedAt ≠ none) ∧
  goLen r.Notes ≤ MaxNotesLength ∧
  (∀ p ∈ r.Metadata, p.1 ≠ "" ∧ goLen p.1 ≤ MaxKeyLength ∧ goLen p.2 ≤ MaxValueLength)

instance (r : Release) : Decidable r.Spec3 := by
  rw [Release.Spec3]
  infer_instance

/-- Violation-flag / message table for `Release.Validate`, one entry per
invariant check, in source order; map entries contribute three checks
each. -/
def Release.checks (r : Release) : List (Bool × String) :=
  [(decide (r.ID = ""), "release ID is required")] ++
  [(decide (r.ApplicationID = ""), "application ID is required")] ++
  [(decide (r.Version = ""), "release version is required"),
   (!decide (r.Version = "") && !isValidSemanticVersion r.Version,
     "release version must follow semantic versioning format (e.g., 1.0.0)")] ++
  [(decide (r.Sequence < 0), "release sequence must be non-negative")] ++
  [(decide (r.Status = ""), "release status is required"),
   (!decide (r.Status = "") && !isValidReleaseStatus r.Status,
     "invalid release status \x27" ++ r.Status ++ "\x27. Valid statuses are: " ++
       goJoin ", " validReleaseStatuses)] ++
  [(decide (r.CreatedAt = 0), "created_at timestamp is required")] ++
  [(decide (r.UpdatedAt = 0), "updated_at timestamp is required")] ++
  [(!decide (r.CreatedAt = 0) && (!decide (r.UpdatedAt = 0) &&
      decide (r.UpdatedAt < r.CreatedAt)),
     "updated_at must be equal to or after created_at")] ++
  [(r.ReleasedAt.elim false fun t => decide (t < r.CreatedAt),
     "released_at must be equal to or after created_at")] ++
  [(decide (r.Status = "released" ∧ r.ReleasedAt = none),
     "released_at is required when status is \x27released\x27")] ++
  [(decide (r.Notes ≠ "") && decide (goLen r.Notes > MaxNotesLength),
     "release notes must be 10000 characters or less")] ++
  kvChecks "metadata keys cannot be empty" "metadata keys must be 100 characters or less"
    "metadata values must be 500 characters or less" r.Metadata

lemma elim_flag_ite (o : Option GoTime) (x : GoTime) (m : String) :
    (if (o.elim false fun t => decide (t < x)) = true then [m] else ([] : List String)) =
      o.elim ([] : List String) (fun t => if t < x then [m] else []) := by
  cases o <;> simp

lemma Release.validateErrors_eq_checks_rel (r : Release) :
    r.validateErrors = ((r.checks.filter Prod.fst).map Prod.snd) := by
  rw [Release.validateErrors, Release.checks]
  simp only [List.filter_append, List.map_append, seg_single, seg_pair, elim_flag_ite,
    kvChecks_filter_eq, decide_eq_true_eq, Bool.and_eq_true, Bool.not_eq_true',
    decide_eq_false_iff_not, Bool.not_eq_true]

lemma Release.validateErrors_eq_nil_iff_rel (r : Release) :
    r.validateErrors = [] ↔ r.Spec3 ∧ r.CreatedAt ≠ 0 ∧ r.UpdatedAt ≠ 0 := by
  rw [Release.validateErrors, Release.Spec3]
  have hver : r.Version = "" → ¬ isValidSemanticVersion r.Version = true := by
    intro h
    rw [h]
    decide
  have hstat : r.Status = "" → ¬ r.Status ∈ validReleaseStatuses := by
    intro h
    rw [h]
    decide
  have hnotes : r.Notes = "" → goLen r.Notes ≤ MaxNotesLength := by
    intro h
    rw [h]
    exact Nat.zero_le _
  simp only [List.append_eq_nil, ite_singleton_eq_nil, ite_pair_eq_nil, optIte_eq_nil,
    kvErrors_eq_nil_iff, not_and, not_not, not_lt, isValidReleaseStatus_iff_mem]
  tauto

end Repl.models

namespace Repl.models

lemma isValidChannelSlug_iff_spec (s : String) :
    isValidChannelSlug s = true ↔ SlugSpec s :=
  isValidSlug_iff_spec s

lemma isValidCustomerType_iff_mem (s : String) :
    isValidCustomerType s = true ↔ s ∈ validCustomerTypes := by
  rw [isValidCustomerType]
  exact any_beq_iff_mem

lemma isValidLicenseType_iff_mem (s : String) :
    isValidLicenseType s = true ↔ s ∈ validLicenseTypes := by
  rw [isValidLicenseType]
  exact any_beq_iff_mem

/-! Channel: specification invariants, checks table, relation to
`Validate`. -/

/-- The Channel invariants exactly as listed in specification
section 3. -/
def Channel.Spec3 (c : Channel) : Prop :=
  c.ID ≠ "" ∧ c.ApplicationID ≠ "" ∧ c.Name ≠ "" ∧
  goLen c.Name ≤ MaxChannelNameLength ∧ SlugSpec c.ChannelSlug ∧
  (c.ReleaseID ≠ "" ↔ 0 < c.ReleaseSequence) ∧
  (c.ArchivedAt ≠ none ↔ c.IsArchived = true) ∧
  (∀ t ∈ c.ArchivedAt, c.CreatedAt ≤ t) ∧
  c.CreatedAt ≤ c.UpdatedAt ∧
  goLen c.Description ≤ MaxChannelDescriptionLength

instance (c : Channel) : Decidable c.Spec3 := by
  rw [Channel.Spec3, SlugSpec]
  infer_instance

/-- Violation-flag / message table for `Channel.Validate`, one entry per
invariant check, in source order. -/
def Channel.checks (c : Channel) : List (Bool × String) :=
  [(decide (c.ID = ""), "channel ID is required")] ++
  [(decide (c.ApplicationID = ""), "application ID is required")] ++
  [(decide (c.Name = ""), "channel name is required"),
   (!decide (c.Name = "") && decide (goLen c.Name > MaxChannelNameLength),
     "channel name must be 100 characters or less")] ++
  [(decide (c.ChannelSlug = ""), "channel slug is required"),
   (!decide (c.ChannelSlug = "") && !isValidChannelSlug c.ChannelSlug,
     "channel slug must contain only lowercase letters, numbers, and hyphens")] ++
  [(decide (c.CreatedAt = 0), "created_at timestamp is required")] ++
  [(decide (c.UpdatedAt = 0), "updated_at timestamp is required")] ++
  [(!decide (c.CreatedAt = 0) && (!decide (c.UpdatedAt = 0) &&
      decide (c.UpdatedAt < c.CreatedAt)),
     "updated_at must be equal to or after created_at")] ++
  [(c.ArchivedAt.elim false fun t => decide (t < c.CreatedAt),
     "archived_at must be equal to or after created_at")] ++
  [(c.ArchivedAt.elim false fun _ => decide (c.IsArchived = false),
     "is_archived must be true when archived_at is set")] ++
  [(decide (c.IsArchived = true ∧ c.ArchivedAt = none),
     "archived_at is required when is_archived is true")] ++
  [(decide (c.ReleaseID ≠ "") && decide (c.ReleaseSequence ≤ 0),
     "release_sequence must be positive when release_id is provided")] ++
  [(decide (c.ReleaseID = "") && decide (c.ReleaseSequence > 0),
     "release_id is required when release_sequence is provided")] ++
  [(decide (c.Description ≠ "") && decide (goLen c.Description > MaxChannelDescriptionLength),
     "channel description must be 500 characters or less")]

lemma elim_flag_ite2 (o : Option GoTime) (b : Bool) (m : String) :
    (if (o.elim false fun _ => decide (b = false)) = true then [m] else ([] : List String)) =
      o.elim ([] : List String) (fun _ => if b = false then [m] else []) := by
  cases o <;> simp

lemma elim_append_split (o : Option GoTime) (f g : GoTime → List String) :
    (o.elim ([] : List String) fun t => f t ++ g t) = (o.elim [] f) ++ (o.elim [] g) := by
  cases o <;> simp

lemma Channel.validateErrors_eq_checks_chan (c : Channel) :
    c.validateErrors = ((c.checks.filter Prod.fst).map Prod.snd) := by
  rw [Channel.validateErrors, Channel.validateBasicFields, Channel.validateTimestamps,
    Channel.validateReleaseRelationship, Channel.validateOptionalFields, Channel.checks]
  simp only [List.filter_append, List.map_append, seg_single, seg_pair,
    elim_flag_ite, elim_flag_ite2, elim_append_split,
    decide_eq_true_eq, Bool.and_eq_true, Bool.not_eq_true', decide_eq_false_iff_not,
    Bool.not_eq_true, List.append_assoc]

lemma Channel.validateErrors_eq_nil_iff_chan (c : Channel) :
    c.validateErrors = [] ↔ c.Spec3 ∧ c.CreatedAt ≠ 0 ∧ c.UpdatedAt ≠ 0 := by
  rw [Channel.validateErrors, Channel.validateBasicFields, Channel.validateTimestamps,
    Channel.validateReleaseRelationship, Channel.validateOptionalFields, Channel.Spec3]
  have hdesc : c.Description = "" → goLen c.Description ≤ MaxChannelDescriptionLength := by
    intro h
    rw [h]
    exact Nat.zero_le _
  simp only [List.append_eq_nil, ite_singleton_eq_nil, ite_pair_eq_nil, archived_seg_eq_nil,
    not_and, not_not, not_lt, not_le, isValidChannelSlug_iff_spec, and_assoc]
  constructor
  · rintro ⟨h1, h2, h3a, h3b, h4a, h4b, h5, h6, h7, h8a, h8b, h9, h10, h11, h12⟩
    refine ⟨h1, h2, h3a, h3b, h4b, ⟨h10, ?_⟩, ⟨h8b, h9⟩, h8a, h7 h5 h6, ?_, h5, h6⟩
    · intro hpos hid
      exact absurd hpos (not_lt.mpr (h11 hid))
    · by_cases hd : c.Description = ""
      · rw [hd]
        exact Nat.zero_le _
      · exact h12 hd
  · rintro ⟨h1, h2, h3, h4, h5, h6, h7, h8, h9, h10, h11, h12⟩
    refine ⟨h1, h2, h3, h4, h5.1, h5, h11, h12, fun _ _ => h9, h8, h7.mp, h7.mpr, h6.mp, ?_,
      fun _ => h10⟩
    intro hid
    exact not_lt.mp (fun hpos => h6.mpr hpos hid)

end Repl.models

namespace Repl.models

/-! Customer: specification invariants, checks table, relation to
`Validate`. -/

/-- The Customer invariants exactly as listed in specification
section 3. -/
def Customer.Spec3 (c : Customer) : Prop :=
  c.ID ≠ "" ∧ c.ApplicationID ≠ "" ∧ c.Name ≠ "" ∧ goLen c.Name ≤ MaxCustomerNameLength ∧
  (c.Email ≠ "" → EmailSpec c.Email) ∧ c.ChannelID ≠ "" ∧
  c.Type' ≠ "" ∧ c.Type' ∈ validCustomerTypes ∧ c.LicenseID ≠ "" ∧
  c.LicenseType ≠ "" ∧ c.LicenseType ∈ validLicenseTypes ∧
  (c.ArchivedAt ≠ none ↔ c.IsArchived = true) ∧ (∀ t ∈ c.ArchivedAt, c.CreatedAt ≤ t) ∧
  (∀ t ∈ c.ExpiresAt, c.CreatedAt ≤ t) ∧ c.CreatedAt ≤ c.UpdatedAt ∧
  (∀ p ∈ c.Entitlements, p.1 ≠ "" ∧ goLen p.1 ≤ MaxKeyLength ∧ goLen p.2 ≤ MaxValueLength) ∧
  (∀ p ∈ c.CustomFields, p.1 ≠ "" ∧ goLen p.1 ≤ MaxKeyLength ∧ goLen p.2 ≤ MaxValueLength)

instance emailSpecDecidable (s : String) : Decidable (EmailSpec s) :=
  decidable_of_iff (isValidEmail s = true) (isValidEmail_iff_spec s)

instance (c : Customer) : Decidable c.Spec3 := by
  rw [Customer.Spec3]
  infer_instance

/-- Violation-flag / message table for `Customer.Validate`, one entry per
invariant check, in source order; map entries contribute three checks
each. -/
def Customer.checks (c : Customer) : List (Bool × String) :=
  [(decide (c.ID = ""), "customer ID is required")] ++
  [(decide (c.ApplicationID = ""), "application ID is required")] ++
  [(decide (c.Name = ""), "customer name is required"),
   (!decide (c.Name = "") && decide (goLen c.Name > MaxCustomerNameLength),
     "customer name must be 255 characters or less")] ++
  [(decide (c.Email ≠ "") && !isValidEmail c.Email,
     "customer email must be a valid email address")] ++
  [(decide (c.ChannelID = ""), "channel ID is required")] ++
  [(decide (c.Type' = ""), "customer type is required"),
   (!decide (c.Type' = "") && !isValidCustomerType c.Type',
     "invalid customer type \x27" ++ c.Type' ++ "\x27. Valid types are: " ++
       goJoin ", " validCustomerTypes)] ++
  [(decide (c.LicenseID = ""), "license ID is required")] ++
  [(decide (c.LicenseType = ""), "license type is required"),
   (!decide (c.LicenseType = "") && !isValidLicenseType c.LicenseType,
     "invalid license type \x27" ++ c.LicenseType ++ "\x27. Valid types are: " ++
       goJoin ", " validLicenseTypes)] ++
  [(decide (c.CreatedAt = 0), "created_at timestamp is required")] ++
  [(decide (c.UpdatedAt = 0), "updated_at timestamp is required")] ++
  [(!decide (c.CreatedAt = 0) && (!decide (c.UpdatedAt = 0) &&
      decide (c.UpdatedAt < c.CreatedAt)),
     "updated_at must be equal to or after created_at")] ++
  [(c.ArchivedAt.elim false fun t => decide (t < c.CreatedAt),
     "archived_at must be equal to or after created_at")] ++
  [(c.ArchivedAt.elim false fun _ => decide (c.IsArchived = false),
     "is_archived must be true when archived_at is set")] ++
  [(decide (c.IsArchived = true ∧ c.ArchivedAt = none),
     "archived_at is required when is_archived is true")] ++
  [(c.ExpiresAt.elim false fun t => decide (t < c.CreatedAt),
     "expires_at must be equal to or after created_at")] ++
  kvChecks "entitlement keys cannot be empty" "entitlement keys must be 100 characters or less"
    "entitlement values must be 500 characters or less" c.Entitlements ++
  kvChecks "custom field keys cannot be empty" "custom field keys must be 100 characters or less"
    "custom field values must be 500 characters or less" c.CustomFields

lemma Customer.validateErrors_eq_checks_cust (c : Customer) :
    c.validateErrors = ((c.checks.filter Prod.fst).map Prod.snd) := by
  rw [Customer.validateErrors, Customer.checks]
  simp only [List.filter_append, List.map_append, seg_single, seg_pair,
    elim_flag_ite, elim_flag_ite2, elim_append_split, kvChecks_filter_eq,
    decide_eq_true_eq, Bool.and_eq_true, Bool.not_eq_true', decide_eq_false_iff_not,
    Bool.not_eq_true, List.append_assoc]

lemma Customer.validateErrors_eq_nil_iff_cust (c : Customer) :
    c.validateErrors = [] ↔ c.Spec3 ∧ c.CreatedAt ≠ 0 ∧ c.UpdatedAt ≠ 0 := by
  rw [Customer.validateErrors, Customer.Spec3]
  simp only [List.append_eq_nil, ite_singleton_eq_nil, ite_pair_eq_nil, archived_seg_eq_nil,
    optIte_eq_nil, kvErrors_eq_nil_iff, not_and, not_not, not_lt, not_le,
    isValidEmail_iff_spec, isValidCustomerType_iff_mem, isValidLicenseType_iff_mem, and_assoc]
  constructor
  · rintro ⟨h1, h2, h3a, h3b, h4, h5, h6a, h6b, h7, h8a, h8b, h9, h10, h11, h12a, h12b, h13,
      h14, h15, h16⟩
    exact ⟨h1, h2, h3a, h3b, h4, h5, h6a, h6b, h7, h8a, h8b, ⟨h12b, h13⟩, h12a, h14,
      h11 h9 h10, h15, h16, h9, h10⟩
  · rintro ⟨h1, h2, h3, h4, h5, h6, h7, h8, h9, h10, h11, h12, h13, h14, h15, h16, h17, h18,
      h19⟩
    exact ⟨h1, h2, h3, h4, h5, h6, h7, h8, h9, h10, h11, h18, h19, fun _ _ => h15, h13,
      h12.mp, h12.mpr, h14, h16, h17⟩

end Repl.models

namespace Repl.models

lemma Application.Validate_none_iff_errors_app (a : Application) :
    a.Validate = none ↔ a.validateErrors = [] := by
  simp only [Application.Validate]
  exact mkValidate_eq_none_iff _ _

lemma Release.Validate_none_iff_errors_rel (r : Release) :
    r.Validate = none ↔ r.validateErrors = [] := by
  simp only [Release.Validate]
  exact mkValidate_eq_none_iff _ _

lemma Channel.Validate_none_iff_errors_chan (c : Channel) :
    c.Validate = none ↔ c.validateErrors = [] := by
  simp only [Channel.Validate]
  exact mkValidate_eq_none_iff _ _

lemma Customer.Validate_none_iff_errors_cust (c : Customer) :
    c.Validate = none ↔ c.validateErrors = [] := by
  simp only [Customer.Validate]
  exact mkValidate_eq_none_iff _ _

lemma Application.Validate_mem_text_app (a : Application) {m : String}
    (hm : m ∈ a.validateErrors) :
    ∃ t, a.Validate = some t ∧ SubList m.data t.data := by
  simp only [Application.Validate]
  exact mkValidate_mem_text _ _ hm

lemma Release.Validate_mem_text_rel (r : Release) {m : String}
    (hm : m ∈ r.validateErrors) :
    ∃ t, r.Validate = some t ∧ SubList m.data t.data := by
  simp only [Release.Validate]
  exact mkValidate_mem_text _ _ hm

lemma Channel.Validate_mem_text_chan (c : Channel) {m : String}
    (hm : m ∈ c.validateErrors) :
    ∃ t, c.Validate = some t ∧ SubList m.data t.data := by
  simp only [Channel.Validate]
  exact mkValidate_mem_text _ _ hm

lemma Customer.Validate_mem_text_cust (c : Customer) {m : String}
    (hm : m ∈ c.validateErrors) :
    ∃ t, c.Validate = some t ∧ SubList m.data t.data := by
  simp only [Customer.Validate]
  exact mkValidate_mem_text _ _ hm

/-- C1 (counterexample to the claim as stated): this Application
satisfies every invariant listed in specification section 3, yet
`Validate` returns an error, because the code additionally requires both
timestamps to be non-zero. -/
theorem validate_iff_section3_counterexample :
    (Application.mk "a" "app" "app" "team" "" 0 0 "" "" true).Spec3 ∧
    (Application.mk "a" "app" "app" "team" "" 0 0 "" "" true).Validate ≠ none := by
  constructor
  · rw [Application.Spec3]
    refine ⟨by decide, by decide, by decide, by decide, ?_, by decide, by decide, by decide⟩
    rw [SlugSpec]
    refine ⟨by decide, ?_, by decide, by decide⟩
    decide
  · decide

/-- C1 (amended): for every value of each of the four entity types,
`Validate` returns nil exactly when every section-3 invariant holds and
both timestamps are non-zero; the collected violation list equals the
descriptions of exactly the violated checks (so validation collects all
violations); and every collected description occurs verbatim in the
rendered error text. -/
theorem validate_collects_all_violations :
    (∀ a : Application,
      (a.Validate = none ↔ a.Spec3 ∧ a.CreatedAt ≠ 0 ∧ a.UpdatedAt ≠ 0) ∧
      a.validateErrors = ((a.checks.filter Prod.fst).map Prod.snd) ∧
      (∀ m ∈ a.validateErrors, ∃ t, a.Validate = some t ∧ SubList m.data t.data)) ∧
    (∀ r : Release,
      (r.Validate = none ↔ r.Spec3 ∧ r.CreatedAt ≠ 0 ∧ r.UpdatedAt ≠ 0) ∧
      r.validateErrors = ((r.checks.filter Prod.fst).map Prod.snd) ∧
      (∀ m ∈ r.validateErrors, ∃ t, r.Validate = some t ∧ SubList m.data t.data)) ∧
    (∀ c : Channel,
      (c.Validate = none ↔ c.Spec3 ∧ c.CreatedAt ≠ 0 ∧ c.UpdatedAt ≠ 0) ∧
      c.validateErrors = ((c.checks.filter Prod.fst).map Prod.snd) ∧
      (∀ m ∈ c.validateErrors, ∃ t, c.Validate = some t ∧ SubList m.data t.data)) ∧
    (∀ c : Customer,
      (c.Validate = none ↔ c.Spec3 ∧ c.CreatedAt ≠ 0 ∧ c.UpdatedAt ≠ 0) ∧
      c.validateErrors = ((c.checks.filter Prod.fst).map Prod.snd) ∧
      (∀ m ∈ c.validateErrors, ∃ t, c.Validate = some t ∧ SubList m.data t.data)) := by
  refine ⟨fun a => ⟨?_, ?_, ?_⟩, fun r => ⟨?_, ?_, ?_⟩, fun c => ⟨?_, ?_, ?_⟩,
    fun c => ⟨?_, ?_, ?_⟩⟩
  · exact (Application.Validate_none_iff_errors_app a).trans (Application.validateErrors_eq_nil_iff_app a)
  · exact Application.validateErrors_eq_checks_app a
  · exact fun m hm => Application.Validate_mem_text_app a hm
  · exact (Release.Validate_none_iff_errors_rel r).trans (Release.validateErrors_eq_nil_iff_rel r)
  · exact Release.validateErrors_eq_checks_rel r
  · exact fun m hm => Release.Validate_mem_text_rel r hm
  · exact (Channel.Validate_none_iff_errors_chan c).trans (Channel.validateErrors_eq_nil_iff_chan c)
  · exact Channel.validateErrors_eq_checks_chan c
  · exact fun m hm => Channel.Validate_mem_text_chan c hm
  · exact (Customer.Validate_none_iff_errors_cust c).trans (Customer.validateErrors_eq_nil_iff_cust c)
  · exact Customer.validateErrors_eq_checks_cust c
  · exact fun m hm => Customer.Validate_mem_text_cust c hm

/-- C1 witness: the amended theorem applied to a concrete invalid
Application, discharging the membership hypothesis. -/
theorem validate_collects_all_violations_witness :
    ∃ t, (Application.mk "" "" "" "" "" 0 0 "" "" false).Validate = some t ∧
      SubList ("application ID is required").data t.data :=
  (validate_collects_all_violations.1 (Application.mk "" "" "" "" "" 0 0 "" "" false)).2.2
    "application ID is required" (by decide)

/-- C10: every validator additionally requires both timestamps to be
set; a zero `created_at` or `updated_at` always produces the
corresponding required-timestamp message and a non-nil error. -/
theorem validators_require_timestamps :
    (∀ a : Application,
      (a.CreatedAt = 0 →
        "created_at timestamp is required" ∈ a.validateErrors ∧ a.Validate ≠ none) ∧
      (a.UpdatedAt = 0 →
        "updated_at timestamp is required" ∈ a.validateErrors ∧ a.Validate ≠ none)) ∧
    (∀ r : Release,
      (r.CreatedAt = 0 →
        "created_at timestamp is required" ∈ r.validateErrors ∧ r.Validate ≠ none) ∧
      (r.UpdatedAt = 0 →
        "updated_at timestamp is required" ∈ r.validateErrors ∧ r.Validate ≠ none)) ∧
    (∀ c : Channel,
      (c.CreatedAt = 0 →
        "created_at timestamp is required" ∈ c.validateErrors ∧ c.Validate ≠ none) ∧
      (c.UpdatedAt = 0 →
        "updated_at timestamp is required" ∈ c.validateErrors ∧ c.Validate ≠ none)) ∧
    (∀ c : Customer,
      (c.CreatedAt = 0 →
        "created_at timestamp is required" ∈ c.validateErrors ∧ c.Validate ≠ none) ∧
      (c.UpdatedAt = 0 →
        "updated_at timestamp is required" ∈ c.validateErrors ∧ c.Validate ≠ none)) := by
  refine ⟨fun a => ⟨fun h => ?_, fun h => ?_⟩, fun r => ⟨fun h => ?_, fun h => ?_⟩,
    fun c => ⟨fun h => ?_, fun h => ?_⟩, fun c => ⟨fun h => ?_, fun h => ?_⟩⟩
  case _ =>
    have hm : "created_at timestamp is required" ∈ a.validateErrors := by
      rw [Application.validateErrors]
      simp [h, List.mem_append]
    refine ⟨hm, fun hnone => ?_⟩
    rw [Application.Validate_none_iff_errors_app] at hnone
    rw [hnone] at hm
    cases hm
  case _ =>
    have hm : "updated_at timestamp is required" ∈ a.validateErrors := by
      rw [Application.validateErrors]
      simp [h, List.mem_append]
    refine ⟨hm, fun hnone => ?_⟩
    rw [Application.Validate_none_iff_errors_app] at hnone
    rw [hnone] at hm
    cases hm
  case _ =>
    have hm : "created_at timestamp is required" ∈ r.validateErrors := by
      rw [Release.validateErrors]
      simp [h, List.mem_append]
    refine ⟨hm, fun hnone => ?_⟩
    rw [Release.Validate_none_iff_errors_rel] at hnone
    rw [hnone] at hm
    cases hm
  case _ =>
    have hm : "updated_at timestamp is required" ∈ r.validateErrors := by
      rw [Release.validateErrors]
      simp [h, List.mem_append]
    refine ⟨hm, fun hnone => ?_⟩
    rw [Release.Validate_none_iff_errors_rel] at hnone
    rw [hnone] at hm
    cases hm
  case _ =>
    have hm : "created_at timestamp is required" ∈ c.validateErrors := by
      rw [Channel.validateErrors, Channel.validateTimestamps]
      simp [h, List.mem_append]
    refine ⟨hm, fun hnone => ?_⟩
    rw [Channel.Validate_none_iff_errors_chan] at hnone
    rw [hnone] at hm
    cases hm
  case _ =>
    have hm : "updated_at timestamp is required" ∈ c.validateErrors := by
      rw [Channel.validateErrors, Channel.validateTimestamps]
      simp [h, List.mem_append]
    refine ⟨hm, fun hnone => ?_⟩
    rw [Channel.Validate_none_iff_errors_chan] at hnone
    rw [hnone] at hm
    cases hm
  case _ =>
    have hm : "created_at timestamp is required" ∈ c.validateErrors := by
      rw [Customer.validateErrors]
      simp [h, List.mem_append]
    refine ⟨hm, fun hnone => ?_⟩
    rw [Customer.Validate_none_iff_errors_cust] at hnone
    rw [hnone] at hm
    cases hm
  case _ =>
    have hm : "updated_at timestamp is required" ∈ c.validateErrors := by
      rw [Customer.validateErrors]
      simp [h, List.mem_append]
    refine ⟨hm, fun hnone => ?_⟩
    rw [Customer.Validate_none_iff_errors_cust] at hnone
    rw [hnone] at hm
    cases hm

/-- C10 witness: the theorem applied to concrete entities with zero
timestamps, discharging the hypotheses. -/
theorem validators_require_timestamps_witness :
    ("created_at timestamp is required" ∈
        (Application.mk "x" "x" "x" "x" "" 0 5 "" "" true).validateErrors ∧
      (Application.mk "x" "x" "x" "x" "" 0 5 "" "" true).Validate ≠ none) ∧
    ("updated_at timestamp is required" ∈
        (Channel.mk "x" "x" "x" "" "" 0 3 0 none false false "x").validateErrors ∧
      (Channel.mk "x" "x" "x" "" "" 0 3 0 none false false "x").Validate ≠ none) :=
  ⟨(validators_require_timestamps.1 (Application.mk "x" "x" "x" "x" "" 0 5 "" "" true)).1 rfl,
   (validators_require_timestamps.2.2.1
      (Channel.mk "x" "x" "x" "" "" 0 3 0 none false false "x")).2 rfl⟩

end Repl.models

namespace Repl

/-! JSON model.  `encoding/json` is embedded via an inductive JSON value
type; a response body is `Option Json`, `none` standing for bytes that
do not parse.  `time.Time` values serialize as their abstract instant
(`Json.num`), standing in for the RFC 3339 string Go produces. -/

/-- A JSON value. -/
inductive Json where
  | null
  | bool (b : Bool)
  | num (n : Int)
  | str (s : String)
  | arr (xs : List Json)
  | obj (fields : List (String × Json))

/-- Object-key lookup with Go semantics: on duplicate keys the last
occurrence wins. -/
def jLookup : List (String × Json) → String → Option Json
  | [], _ => none
  | (k, v) :: rest, key =>
    match jLookup rest key with
    | some r => some r
    | none => if k == key then some v else none

/-- Go unmarshal into `string`: a JSON string, or null leaving the zero
value. -/
def decodeString : Json → Option String
  | .str s => some s
  | .null => some ""
  | _ => none

/-- Go unmarshal into an integer field. -/
def decodeInt : Json → Option Int
  | .num n => some n
  | .null => some 0
  | _ => none

/-- Go unmarshal into `bool`. -/
def decodeBool : Json → Option Bool
  | .bool b => some b
  | .null => some false
  | _ => none

/-- Go unmarshal into `time.Time` (the instant abstraction). -/
def decodeTime : Json → Option GoTime
  | .num n => some n
  | .null => some 0
  | _ => none

/-- Go unmarshal into `*time.Time`: null or missing gives nil. -/
def decodeOptTime : Json → Option (Option GoTime)
  | .null => some none
  | .num n => some (some n)
  | _ => none

/-- Go unmarshal of a list of object entries into string map entries. -/
def decodeStrMapEntries : List (String × Json) → Option (List (String × String))
  | [] => some []
  | (k, j) :: rest =>
    (decodeString j).bind fun v =>
      (decodeStrMapEntries rest).map fun r => (k, v) :: r

/-- Go unmarshal into `map[string]string`. -/
def decodeStrMap : Json → Option (List (String × String))
  | .null => some []
  | .obj fields => decodeStrMapEntries fields
  | _ => none

/-- Struct-field read: a missing key leaves the zero value. -/
def getStr (fields : List (String × Json)) (key : String) : Option String :=
  match jLookup fields key with
  | none => some ""
  | some j => decodeString j

/-- Struct-field read for an integer, missing key giving zero. -/
def getInt (fields : List (String × Json)) (key : String) : Option Int :=
  match jLookup fields key with
  | none => some 0
  | some j => decodeInt j

/-- Struct-field read for a Bool, missing key giving false. -/
def getBool (fields : List (String × Json)) (key : String) : Option Bool :=
  match jLookup fields key with
  | none => some false
  | some j => decodeBool j

/-- Struct-field read for a time, missing key giving the zero time. -/
def getTime (fields : List (String × Json)) (key : String) : Option GoTime :=
  match jLookup fields key with
  | none => some 0
  | some j => decodeTime j

/-- Struct-field read for a time pointer, missing key giving nil. -/
def getOptTime (fields : List (String × Json)) (key : String) : Option (Option GoTime) :=
  match jLookup fields key with
  | none => some none
  | some j => decodeOptTime j

/-- Struct-field read for a string map, missing key giving a nil map. -/
def getMap (fields : List (String × Json)) (key : String) :
    Option (List (String × String)) :=
  match jLookup fields key with
  | none => some []
  | some j => decodeStrMap j

/-- Marshal segment for a plain string field. -/
def strField (key : String) (v : String) : List (String × Json) := [(key, .str v)]

/-- Marshal segment for an `omitempty` string field. -/
def strFieldOmit (key : String) (v : String) : List (String × Json) :=
  if v = "" then [] else [(key, .str v)]

/-- Marshal segment for a time field. -/
def timeField (key : String) (t : GoTime) : List (String × Json) := [(key, .num t)]

/-- Marshal segment for an `omitempty` `*time.Time` field. -/
def optTimeField (key : String) (o : Option GoTime) : List (String × Json) :=
  o.elim [] fun t => [(key, .num t)]

/-- Marshal segment for an integer field. -/
def intField (key : String) (v : Int) : List (String × Json) := [(key, .num v)]

/-- Marshal segment for an `omitempty` integer field. -/
def intFieldOmit (key : String) (v : Int) : List (String × Json) :=
  if v = 0 then [] else [(key, .num v)]

/-- Marshal segment for a Bool field. -/
def boolField (key : String) (v : Bool) : List (String × Json) := [(key, .bool v)]

/-- Marshal segment for an `omitempty` string-map field. -/
def mapField (key : String) (m : List (String × String)) : List (String × Json) :=
  if m = [] then [] else [(key, .obj (m.map fun p => (p.1, .str p.2)))]

end Repl

namespace Repl.models

open Repl

/-- Go `json.Marshal` of an Application, fields in struct order with the
tags and `omitempty` options of the source. -/
def encodeApplication (a : Application) : Json :=
  .obj (strField "id" a.ID ++ strField "name" a.Name ++ strField "slug" a.Slug ++
    strField "team_id" a.TeamID ++ strFieldOmit "team_name" a.TeamName ++
    timeField "created_at" a.CreatedAt ++ timeField "updated_at" a.UpdatedAt ++
    strFieldOmit "description" a.Description ++ strFieldOmit "icon" a.Icon ++
    boolField "is_active" a.IsActive)

/-- Go `json.Unmarshal` into an Application. -/
def decodeApplication : Json → Option Application
  | .null => some ⟨"", "", "", "", "", 0, 0, "", "", false⟩
  | .obj fields =>
    (getStr fields "id").bind fun id =>
    (getStr fields "name").bind fun name =>
    (getStr fields "slug").bind fun slug =>
    (getStr fields "team_id").bind fun teamID =>
    (getStr fields "team_name").bind fun teamName =>
    (getTime fields "created_at").bind fun createdAt =>
    (getTime fields "updated_at").bind fun updatedAt =>
    (getStr fields "description").bind fun description =>
    (getStr fields "icon").bind fun icon =>
    (getBool fields "is_active").bind fun isActive =>
    some ⟨id, name, slug, teamID, teamName, createdAt, updatedAt, description, icon, isActive⟩
  | _ => none

/-- Go `json.Marshal` of a Release. -/
def encodeRelease (r : Release) : Json :=
  .obj (strField "id" r.ID ++ strField "application_id" r.ApplicationID ++
    strField "version" r.Version ++ intField "sequence" r.Sequence ++
    timeField "created_at" r.CreatedAt ++ timeField "updated_at" r.UpdatedAt ++
    optTimeField "released_at" r.ReleasedAt ++ strFieldOmit "notes" r.Notes ++
    mapField "metadata" r.Metadata ++ boolField "is_required" r.IsRequired ++
    boolField "is_prerelease" r.IsPrerelease ++ strField "status" r.Status ++
    strFieldOmit "config" r.Config)

/-- Go `json.Unmarshal` into a Release. -/
def decodeRelease : Json → Option Release
  | .null => some ⟨"", "", "", 0, 0, 0, none, "", [], false, false, "", ""⟩
  | .obj fields =>
    (getStr fields "id").bind fun id =>
    (getStr fields "application_id").bind fun applicationID =>
    (getStr fields "version").bind fun version =>
    (getInt fields "sequence").bind fun sequence =>
    (getTime fields "created_at").bind fun createdAt =>
    (getTime fields "updated_at").bind fun updatedAt =>
    (getOptTime fields "released_at").bind fun releasedAt =>
    (getStr fields "notes").bind fun notes =>
    (getMap fields "metadata").bind fun metadata =>
    (getBool fields "is_required").bind fun isRequired =>
    (getBool fields "is_prerelease").bind fun isPrerelease =>
    (getStr fields "status").bind fun status =>
    (getStr fields "config").bind fun config =>
    some ⟨id, applicationID, version, sequence, createdAt, updatedAt, releasedAt, notes,
      metadata, isRequired, isPrerelease, status, config⟩
  | _ => none

/-- Go `json.Marshal` of a Channel. -/
def encodeChannel (c : Channel) : Json :=
  .obj (strField "id" c.ID ++ strField "application_id" c.ApplicationID ++
    strField "name" c.Name ++ strFieldOmit "description" c.Description ++
    strFieldOmit "release_id" c.ReleaseID ++ intFieldOmit "release_sequence" c.ReleaseSequence ++
    timeField "created_at" c.CreatedAt ++ timeField "updated_at" c.UpdatedAt ++
    optTimeField "archived_at" c.ArchivedAt ++ boolField "is_default" c.IsDefault ++
    boolField "is_archived" c.IsArchived ++ strField "channel_slug" c.ChannelSlug)

/-- Go `json.Unmarshal` into a Channel. -/
def decodeChannel : Json → Option Channel
  | .null => some ⟨"", "", "", "", "", 0, 0, 0, none, false, false, ""⟩
  | .obj fields =>
    (getStr fields "id").bind fun id =>
    (getStr fields "application_id").bind fun applicationID =>
    (getStr fields "name").bind fun name =>
    (getStr fields "description").bind fun description =>
    (getStr fields "release_id").bind fun releaseID =>
    (getInt fields "release_sequence").bind fun releaseSequence =>
    (getTime fields "created_at").bind fun createdAt =>
    (getTime fields "updated_at").bind fun updatedAt =>
    (getOptTime fields "archived_at").bind fun archivedAt =>
    (getBool fields "is_default").bind fun isDefault =>
    (getBool fields "is_archived").bind fun isArchived =>
    (getStr fields "channel_slug").bind fun channelSlug =>
    some ⟨id, applicationID, name, description, releaseID, releaseSequence, createdAt,
      updatedAt, archivedAt, isDefault, isArchived, channelSlug⟩
  | _ => none

/-- Go `json.Marshal` of a Customer. -/
def encodeCustomer (c : Customer) : Json :=
  .obj (strField "id" c.ID ++ strField "application_id" c.ApplicationID ++
    strField "name" c.Name ++ strFieldOmit "email" c.Email ++
    strField "channel_id" c.ChannelID ++ strFieldOmit "channel_name" c.ChannelName ++
    timeField "created_at" c.CreatedAt ++ timeField "updated_at" c.UpdatedAt ++
    optTimeField "archived_at" c.ArchivedAt ++ optTimeField "expires_at" c.ExpiresAt ++
    strField "type" c.Type' ++ boolField "is_archived" c.IsArchived ++
    boolField "is_gitops_supported" c.IsGitOpsSupported ++
    strField "license_id" c.LicenseID ++ strField "license_type" c.LicenseType ++
    mapField "entitlements" c.Entitlements ++ mapField "custom_fields" c.CustomFields)

/-- Go `json.Unmarshal` into a Customer. -/
def decodeCustomer : Json → Option Customer
  | .null => some ⟨"", "", "", "", "", "", 0, 0, none, none, "", false, false, "", "", [], []⟩
  | .obj fields =>
    (getStr fields "id").bind fun id =>
    (getStr fields "application_id").bind fun applicationID =>
    (getStr fields "name").bind fun name =>
    (getStr fields "email").bind fun email =>
    (getStr fields "channel_id").bind fun channelID =>
    (getStr fields "channel_name").bind fun channelName =>
    (getTime fields "created_at").bind fun createdAt =>
    (getTime fields "updated_at").bind fun updatedAt =>
    (getOptTime fields "archived_at").bind fun archivedAt =>
    (getOptTime fields "expires_at").bind fun expiresAt =>
    (getStr fields "type").bind fun typ =>
    (getBool fields "is_archived").bind fun isArchived =>
    (getBool fields "is_gitops_supported").bind fun isGitOpsSupported =>
    (getStr fields "license_id").bind fun licenseID =>
    (getStr fields "license_type").bind fun licenseType =>
    (getMap fields "entitlements").bind fun entitlements =>
    (getMap fields "custom_fields").bind fun customFields =>
    some ⟨id, applicationID, name, email, channelID, channelName, createdAt, updatedAt,
      archivedAt, expiresAt, typ, isArchived, isGitOpsSupported, licenseID, licenseType,
      entitlements, customFields⟩
  | _ => none

lemma decodeStrMapEntries_roundtrip (m : List (String × String)) :
    decodeStrMapEntries (m.map fun p => (p.1, Json.str p.2)) = some m := by
  induction m with
  | nil => rfl
  | cons p rest ih =>
    simp [decodeStrMapEntries, decodeString, ih]

end Repl.models

namespace Repl.models

open Repl

lemma decodeApplication_roundtrip (a : Application) :
    decodeApplication (encodeApplication a) = some a := by
  rcases a with ⟨ID, Name, Slug, TeamID, TeamName, CreatedAt, UpdatedAt, Description, Icon,
    IsActive⟩
  by_cases h1 : TeamName = "" <;> by_cases h2 : Description = "" <;> by_cases h3 : Icon = "" <;>
    simp [encodeApplication, decodeApplication, strField, strFieldOmit, timeField, boolField,
      getStr, getTime, getBool, jLookup, decodeString, decodeBool, decodeTime, h1, h2, h3]

lemma decodeRelease_roundtrip (r : Release) :
    decodeRelease (encodeRelease r) = some r := by
  rcases r with ⟨ID, ApplicationID, Version, Sequence, CreatedAt, UpdatedAt, ReleasedAt, Notes,
    Metadata, IsRequired, IsPrerelease, Status, Config⟩
  rcases ReleasedAt with _ | t <;> by_cases h1 : Notes = "" <;> by_cases h2 : Metadata = [] <;>
    by_cases h3 : Config = "" <;>
    simp [encodeRelease, decodeRelease, strField, strFieldOmit, timeField, boolField, intField,
      optTimeField, mapField, getStr, getTime, getBool, getInt, getOptTime, getMap, jLookup,
      decodeString, decodeBool, decodeTime, decodeInt, decodeOptTime, decodeStrMap,
      decodeStrMapEntries_roundtrip, h1, h2, h3]

lemma decodeChannel_roundtrip (c : Channel) :
    decodeChannel (encodeChannel c) = some c := by
  rcases c with ⟨ID, ApplicationID, Name, Description, ReleaseID, ReleaseSequence, CreatedAt,
    UpdatedAt, ArchivedAt, IsDefault, IsArchived, ChannelSlug⟩
  rcases ArchivedAt with _ | t <;> by_cases h1 : Description = "" <;>
    by_cases h2 : ReleaseID = "" <;> by_cases h3 : ReleaseSequence = 0 <;>
    simp [encodeChannel, decodeChannel, strField, strFieldOmit, timeField, boolField, intField,
      intFieldOmit, optTimeField, getStr, getTime, getBool, getInt, getOptTime, jLookup,
      decodeString, decodeBool, decodeTime, decodeInt, decodeOptTime, h1, h2, h3]

lemma elim_none_some (o : Option Json) : o.elim none some = o := by
  cases o <;> rfl

lemma jLookup_append (l₁ l₂ : List (String × Json)) (key : String) :
    jLookup (l₁ ++ l₂) key = (jLookup l₂ key).elim (jLookup l₁ key) some := by
  induction l₁ with
  | nil =>
    rcases h : jLookup l₂ key with _ | v <;> simp [h, jLookup]
  | cons p rest ih =>
    rcases p with ⟨k, v⟩
    rw [List.cons_append]
    show (match jLookup (rest ++ l₂) key with
      | some r => some r
      | none => if k == key then some v else none) = _
    rw [ih]
    rcases h₂ : jLookup l₂ key with _ | r₂ <;> rcases h₁ : jLookup rest key with _ | r₁ <;>
      simp [jLookup, h₁, h₂]

lemma jLookup_strField_self (k : String) (v : String) :
    jLookup (strField k v) k = some (.str v) := by
  simp [strField, jLookup]

lemma jLookup_strField_ne {k' key : String} (v : String) (h : (k' == key) = false) :
    jLookup (strField k' v) key = none := by
  simp [strField, jLookup, h]

lemma jLookup_strFieldOmit_self (k : String) (v : String) :
    jLookup (strFieldOmit k v) k = if v = "" then none else some (.str v) := by
  rw [strFieldOmit]
  split <;> simp [jLookup]

lemma jLookup_strFieldOmit_ne {k' key : String} (v : String) (h : (k' == key) = false) :
    jLookup (strFieldOmit k' v) key = none := by
  rw [strFieldOmit]
  split <;> simp [jLookup, h]

lemma jLookup_timeField_self (k : String) (t : GoTime) :
    jLookup (timeField k t) k = some (.num t) := by
  simp [timeField, jLookup]

lemma jLookup_timeField_ne {k' key : String} (t : GoTime) (h : (k' == key) = false) :
    jLookup (timeField k' t) key = none := by
  simp [timeField, jLookup, h]

lemma jLookup_boolField_self (k : String) (b : Bool) :
    jLookup (boolField k b) k = some (.bool b) := by
  simp [boolField, jLookup]

lemma jLookup_boolField_ne {k' key : String} (b : Bool) (h : (k' == key) = false) :
    jLookup (boolField k' b) key = none := by
  simp [boolField, jLookup, h]

lemma jLookup_optTimeField_self (k : String) (o : Option GoTime) :
    jLookup (optTimeField k o) k = o.elim none fun t => some (.num t) := by
  cases o <;> simp [optTimeField, jLookup]

lemma jLookup_optTimeField_ne {k' key : String} (o : Option GoTime)
    (h : (k' == key) = false) :
    jLookup (optTimeField k' o) key = none := by
  cases o <;> simp [optTimeField, jLookup, h]

lemma jLookup_mapField_self (k : String) (m : List (String × String)) :
    jLookup (mapField k m) k =
      if m = [] then none else some (.obj (m.map fun p => (p.1, .str p.2))) := by
  rw [mapField]
  split <;> simp [jLookup]

lemma jLookup_mapField_ne {k' key : String} (m : List (String × String))
    (h : (k' == key) = false) :
    jLookup (mapField k' m) key = none := by
  rw [mapField]
  split <;> simp [jLookup, h]

lemma getStr_of_omit (fields : List (String × Json)) (key : String) {v : String}
    (h : jLookup fields key = if v = "" then none else some (.str v)) :
    getStr fields key = some v := by
  rw [getStr, h]
  by_cases hv : v = "" <;> simp [hv, decodeString]

lemma getStr_of_req (fields : List (String × Json)) (key : String) {v : String}
    (h : jLookup fields key = some (.str v)) :
    getStr fields key = some v := by
  rw [getStr, h]
  rfl

lemma getTime_of_req (fields : List (String × Json)) (key : String) {t : GoTime}
    (h : jLookup fields key = some (.num t)) :
    getTime fields key = some t := by
  rw [getTime, h]
  rfl

lemma getBool_of_req (fields : List (String × Json)) (key : String) {b : Bool}
    (h : jLookup fields key = some (.bool b)) :
    getBool fields key = some b := by
  rw [getBool, h]
  rfl

lemma getOptTime_of_elim (fields : List (String × Json)) (key : String) {o : Option GoTime}
    (h : jLookup fields key = o.elim none fun t => some (.num t)) :
    getOptTime fields key = some o := by
  rw [getOptTime, h]
  cases o <;> rfl

lemma getMap_of_omit (fields : List (String × Json)) (key : String)
    {m : List (String × String)}
    (h : jLookup fields key =
      if m = [] then none else some (.obj (m.map fun p => (p.1, .str p.2)))) :
    getMap fields key = some m := by
  rw [getMap, h]
  by_cases hm : m = []
  · simp [hm]
  · simp [hm, decodeStrMap, decodeStrMapEntries_roundtrip]

end Repl.models

namespace Repl.models

open Repl

lemma decodeCustomer_roundtrip (c : Customer) :
    decodeCustomer (encodeCustomer c) = some c := by
  rcases c with ⟨ID, ApplicationID, Name, Email, ChannelID, ChannelName, CreatedAt, UpdatedAt,
    ArchivedAt, ExpiresAt, Type', IsArchived, IsGitOpsSupported, LicenseID, LicenseType,
    Entitlements, CustomFields⟩
  rw [encodeCustomer]
  set fields := strField "id" ID ++ strField "application_id" ApplicationID ++
    strField "name" Name ++ strFieldOmit "email" Email ++
    strField "channel_id" ChannelID ++ strFieldOmit "channel_name" ChannelName ++
    timeField "created_at" CreatedAt ++ timeField "updated_at" UpdatedAt ++
    optTimeField "archived_at" ArchivedAt ++ optTimeField "expires_at" ExpiresAt ++
    strField "type" Type' ++ boolField "is_archived" IsArchived ++
    boolField "is_gitops_supported" IsGitOpsSupported ++
    strField "license_id" LicenseID ++ strField "license_type" LicenseType ++
    mapField "entitlements" Entitlements ++ mapField "custom_fields" CustomFields
    with hfields
  have hid : getStr fields "id" = some ID := by
    refine getStr_of_req _ _ ?_
    rw [hfields]
    simp [elim_none_some, jLookup_append, jLookup_strField_self, jLookup_strField_ne, jLookup_strFieldOmit_ne,
      jLookup_timeField_ne, jLookup_boolField_ne, jLookup_optTimeField_ne, jLookup_mapField_ne]
  have happid : getStr fields "application_id" = some ApplicationID := by
    refine getStr_of_req _ _ ?_
    rw [hfields]
    simp [elim_none_some, jLookup_append, jLookup_strField_self, jLookup_strField_ne, jLookup_strFieldOmit_ne,
      jLookup_timeField_ne, jLookup_boolField_ne, jLookup_optTimeField_ne, jLookup_mapField_ne]
  have hname : getStr fields "name" = some Name := by
    refine getStr_of_req _ _ ?_
    rw [hfields]
    simp [elim_none_some, jLookup_append, jLookup_strField_self, jLookup_strField_ne, jLookup_strFieldOmit_ne,
      jLookup_timeField_ne, jLookup_boolField_ne, jLookup_optTimeField_ne, jLookup_mapField_ne]
  have hemail : getStr fields "email" = some Email := by
    refine getStr_of_omit _ _ ?_
    rw [hfields]
    simp [elim_none_some, jLookup_append, jLookup_strField_ne, jLookup_strFieldOmit_self,
      jLookup_strFieldOmit_ne, jLookup_timeField_ne, jLookup_boolField_ne,
      jLookup_optTimeField_ne, jLookup_mapField_ne]
  have hchid : getStr fields "channel_id" = some ChannelID := by
    refine getStr_of_req _ _ ?_
    rw [hfields]
    simp [elim_none_some, jLookup_append, jLookup_strField_self, jLookup_strField_ne, jLookup_strFieldOmit_ne,
      jLookup_timeField_ne, jLookup_boolField_ne, jLookup_optTimeField_ne, jLookup_mapField_ne]
  have hchname : getStr fields "channel_name" = some ChannelName := by
    refine getStr_of_omit _ _ ?_
    rw [hfields]
    simp [elim_none_some, jLookup_append, jLookup_strField_ne, jLookup_strFieldOmit_self,
      jLookup_strFieldOmit_ne, jLookup_timeField_ne, jLookup_boolField_ne,
      jLookup_optTimeField_ne, jLookup_mapField_ne]
  have hcreated : getTime fields "created_at" = some CreatedAt := by
    refine getTime_of_req _ _ ?_
    rw [hfields]
    simp [elim_none_some, jLookup_append, jLookup_strField_ne, jLookup_strFieldOmit_ne, jLookup_timeField_self,
      jLookup_timeField_ne, jLookup_boolField_ne, jLookup_optTimeField_ne, jLookup_mapField_ne]
  have hupdated : getTime fields "updated_at" = some UpdatedAt := by
    refine getTime_of_req _ _ ?_
    rw [hfields]
    simp [elim_none_some, jLookup_append, jLookup_strField_ne, jLookup_strFieldOmit_ne, jLookup_timeField_self,
      jLookup_timeField_ne, jLookup_boolField_ne, jLookup_optTimeField_ne, jLookup_mapField_ne]
  have harch : getOptTime fields "archived_at" = some ArchivedAt := by
    refine getOptTime_of_elim _ _ ?_
    rw [hfields]
    simp [elim_none_some, jLookup_append, jLookup_strField_ne, jLookup_strFieldOmit_ne, jLookup_timeField_ne,
      jLookup_boolField_ne, jLookup_optTimeField_self, jLookup_optTimeField_ne,
      jLookup_mapField_ne]
  have hexp : getOptTime fields "expires_at" = some ExpiresAt := by
    refine getOptTime_of_elim _ _ ?_
    rw [hfields]
    simp [elim_none_some, jLookup_append, jLookup_strField_ne, jLookup_strFieldOmit_ne, jLookup_timeField_ne,
      jLookup_boolField_ne, jLookup_optTimeField_self, jLookup_optTimeField_ne,
      jLookup_mapField_ne]
  have htype : getStr fields "type" = some Type' := by
    refine getStr_of_req _ _ ?_
    rw [hfields]
    simp [elim_none_some, jLookup_append, jLookup_strField_self, jLookup_strField_ne, jLookup_strFieldOmit_ne,
      jLookup_timeField_ne, jLookup_boolField_ne, jLookup_optTimeField_ne, jLookup_mapField_ne]
  have hisar : getBool fields "is_archived" = some IsArchived := by
    refine getBool_of_req _ _ ?_
    rw [hfields]
    simp [elim_none_some, jLookup_append, jLookup_strField_ne, jLookup_strFieldOmit_ne, jLookup_timeField_ne,
      jLookup_boolField_self, jLookup_boolField_ne, jLookup_optTimeField_ne, jLookup_mapField_ne]
  have hgitops : getBool fields "is_gitops_supported" = some IsGitOpsSupported := by
    refine getBool_of_req _ _ ?_
    rw [hfields]
    simp [elim_none_some, jLookup_append, jLookup_strField_ne, jLookup_strFieldOmit_ne, jLookup_timeField_ne,
      jLookup_boolField_self, jLookup_boolField_ne, jLookup_optTimeField_ne, jLookup_mapField_ne]
  have hlicid : getStr fields "license_id" = some LicenseID := by
    refine getStr_of_req _ _ ?_
    rw [hfields]
    simp [elim_none_some, jLookup_append, jLookup_strField_self, jLookup_strField_ne, jLookup_strFieldOmit_ne,
      jLookup_timeField_ne, jLookup_boolField_ne, jLookup_optTimeField_ne, jLookup_mapField_ne]
  have hlictype : getStr fields "license_type" = some LicenseType := by
    refine getStr_of_req _ _ ?_
    rw [hfields]
    simp [elim_none_some, jLookup_append, jLookup_strField_self, jLookup_strField_ne, jLookup_strFieldOmit_ne,
      jLookup_timeField_ne, jLookup_boolField_ne, jLookup_optTimeField_ne, jLookup_mapField_ne]
  have hent : getMap fields "entitlements" = some Entitlements := by
    refine getMap_of_omit _ _ ?_
    rw [hfields]
    simp [elim_none_some, jLookup_append, jLookup_strField_ne, jLookup_strFieldOmit_ne, jLookup_timeField_ne,
      jLookup_boolField_ne, jLookup_optTimeField_ne, jLookup_mapField_self, jLookup_mapField_ne]
  have hcf : getMap fields "custom_fields" = some CustomFields := by
    refine getMap_of_omit _ _ ?_
    rw [hfields]
    simp [elim_none_some, jLookup_append, jLookup_strField_ne, jLookup_strFieldOmit_ne, jLookup_timeField_ne,
      jLookup_boolField_ne, jLookup_optTimeField_ne, jLookup_mapField_self, jLookup_mapField_ne]
  show decodeCustomer (.obj fields) = _
  rw [decodeCustomer]
  rw [hid, happid, hname, hemail, hchid, hchname, hcreated, hupdated, harch, hexp, htype,
    hisar, hgitops, hlicid, hlictype, hent, hcf]
  rfl

/-- C6: for every entity value of any of the four types that passes
`Validate`, marshaling to JSON and unmarshaling the result yields the
original value field for field. -/
theorem json_roundtrip_valid_entities :
    (∀ a : Application, a.Validate = none →
      decodeApplication (encodeApplication a) = some a) ∧
    (∀ r : Release, r.Validate = none →
      decodeRelease (encodeRelease r) = some r) ∧
    (∀ c : Channel, c.Validate = none →
      decodeChannel (encodeChannel c) = some c) ∧
    (∀ c : Customer, c.Validate = none →
      decodeCustomer (encodeCustomer c) = some c) :=
  ⟨fun a _ => decodeApplication_roundtrip a, fun r _ => decodeRelease_roundtrip r,
   fun c _ => decodeChannel_roundtrip c, fun c _ => decodeCustomer_roundtrip c⟩

/-- C6 witness: the round-trip theorem applied to concrete valid
entities of all four types, discharging the validity hypotheses. -/
theorem json_roundtrip_valid_entities_witness :
    ((Application.mk "a1" "App" "app" "team" "Team" 1 2 "d" "i" true).Validate = none ∧
      decodeApplication (encodeApplication
        (Application.mk "a1" "App" "app" "team" "Team" 1 2 "d" "i" true)) =
        some (Application.mk "a1" "App" "app" "team" "Team" 1 2 "d" "i" true)) ∧
    ((Release.mk "r1" "a1" "1.0.0" 1 1 2 (some 1) "n" [("k", "v")] false true "released"
        "cfg").Validate = none ∧
      decodeRelease (encodeRelease (Release.mk "r1" "a1" "1.0.0" 1 1 2 (some 1) "n"
        [("k", "v")] false true "released" "cfg")) =
        some (Release.mk "r1" "a1" "1.0.0" 1 1 2 (some 1) "n" [("k", "v")] false true
          "released" "cfg")) ∧
    ((Channel.mk "c1" "a1" "Stable" "d" "r1" 3 1 2 none true false "stable").Validate = none ∧
      decodeChannel (encodeChannel
        (Channel.mk "c1" "a1" "Stable" "d" "r1" 3 1 2 none true false "stable")) =
        some (Channel.mk "c1" "a1" "Stable" "d" "r1" 3 1 2 none true false "stable")) ∧
    ((Customer.mk "u1" "a1" "Cust" "a@b.co" "c1" "Stable" 1 2 none (some 5) "paid" false true
        "lic" "paid" [("e", "1")] [("f", "2")]).Validate = none ∧
      decodeCustomer (encodeCustomer (Customer.mk "u1" "a1" "Cust" "a@b.co" "c1" "Stable" 1 2
        none (some 5) "paid" false true "lic" "paid" [("e", "1")] [("f", "2")])) =
        some (Customer.mk "u1" "a1" "Cust" "a@b.co" "c1" "Stable" 1 2 none (some 5) "paid"
          false true "lic" "paid" [("e", "1")] [("f", "2")])) :=
  ⟨⟨by decide, json_roundtrip_valid_entities.1 _ (by decide)⟩,
   ⟨by decide, json_roundtrip_valid_entities.2.1 _ (by decide)⟩,
   ⟨by decide, json_roundtrip_valid_entities.2.2.1 _ (by decide)⟩,
   ⟨by decide, json_roundtrip_valid_entities.2.2.2 _ (by decide)⟩⟩


end Repl.models

namespace Repl.api

open Repl

/-! HTTP plumbing from the API client source: status handling, error
conversion and rendering.  A response body is its parse result
(`Option Json`); a transport is an oracle from request path to response
or transport-error text. -/

/-- Threshold constant from the client source. -/
def HTTPErrorThreshold : Nat := 400

/-- Go `http.StatusText`: the standard status-code text table, empty for
unknown codes. -/
def statusText : Nat → String
  | 100 => "Continue"
  | 101 => "Switching Protocols"
  | 102 => "Processing"
  | 103 => "Early Hints"
  | 200 => "OK"
  | 201 => "Created"
  | 202 => "Accepted"
  | 203 => "Non-Authoritative Information"
  | 204 => "No Content"
  | 205 => "Reset Content"
  | 206 => "Partial Content"
  | 207 => "Multi-Status"
  | 208 => "Already Reported"
  | 226 => "IM Used"
  | 300 => "Multiple Choices"
  | 301 => "Moved Permanently"
  | 302 => "Found"
  | 303 => "See Other"
  | 304 => "Not Modified"
  | 305 => "Use Proxy"
  | 307 => "Temporary Redirect"
  | 308 => "Permanent Redirect"
  | 400 => "Bad Request"
  | 401 => "Unauthorized"
  | 402 => "Payment Required"
  | 403 => "Forbidden"
  | 404 => "Not Found"
  | 405 => "Method Not Allowed"
  | 406 => "Not Acceptable"
  | 407 => "Proxy Authentication Required"
  | 408 => "Request Timeout"
  | 409 => "Conflict"
  | 410 => "Gone"
  | 411 => "Length Required"
  | 412 => "Precondition Failed"
  | 413 => "Request Entity Too Large"
  | 414 => "Request URI Too Long"
  | 415 => "Unsupported Media Type"
  | 416 => "Requested Range Not Satisfiable"
  | 417 => "Expectation Failed"
  | 418 => "I\x27m a teapot"
  | 421 => "Misdirected Request"
  | 422 => "Unprocessable Entity"
  | 423 => "Locked"
  | 424 => "Failed Dependency"
  | 425 => "Too Early"
  | 426 => "Upgrade Required"
  | 428 => "Precondition Required"
  | 429 => "Too Many Requests"
  | 431 => "Request Header Fields Too Large"
  | 451 => "Unavailable For Legal Reasons"
  | 500 => "Internal Server Error"
  | 501 => "Not Implemented"
  | 502 => "Bad Gateway"
  | 503 => "Service Unavailable"
  | 504 => "Gateway Timeout"
  | 505 => "HTTP Version Not Supported"
  | 506 => "Variant Also Negotiates"
  | 507 => "Insufficient Storage"
  | 508 => "Loop Detected"
  | 510 => "Not Extended"
  | 511 => "Network Authentication Required"
  | _ => ""

/-- Go struct `api.Error` from the types source. -/
structure Error where
  StatusCode : Nat
  Message : String
  Details : String

/-- The `Error() string` method of `api.Error`: the rendered error
text. -/
def Error.Error (e : Error) : String :=
  if e.Details ≠ "" then
    "API error (status " ++ toString e.StatusCode ++ "): " ++ e.Message ++ " - " ++ e.Details
  else
    "API error (status " ++ toString e.StatusCode ++ "): " ++ e.Message

/-- An HTTP response as the services observe it: a status code and the
parse result of the body bytes (`none` when the bytes are unreadable or
not valid JSON). -/
structure HttpResponse where
  statusCode : Nat
  body : Option Json

/-- A transport oracle standing for `Client.Get`: request path to
response, or a transport-error text. -/
abbrev Fetch := String → Except String HttpResponse

/-- Go error values as the services produce them: a plain message, a
structured API error, or a `fmt.Errorf("...: %w", err)` wrap. -/
inductive GoErr where
  | msg (s : String)
  | api (e : Error)
  | wrap (context : String) (inner : GoErr)

instance : DecidableEq Error := fun a b => by
  rcases a with ⟨s₁, m₁, d₁⟩
  rcases b with ⟨s₂, m₂, d₂⟩
  rcases Nat.decEq s₁ s₂ with h | h
  · exact .isFalse (by simp [h])
  · rcases String.decEq m₁ m₂ with h₂ | h₂
    · exact .isFalse (by simp [h₂])
    · rcases String.decEq d₁ d₂ with h₃ | h₃
      · exact .isFalse (by simp [h₃])
      · exact .isTrue (by rw [h, h₂, h₃])

/-- Go unmarshal of a response body into the anonymous
`struct{ Message, Details string }` used by `ConvertHTTPError`. -/
def decodeErrorResponse : Json → Option (String × String)
  | .null => some ("", "")
  | .obj fields =>
    (getStr fields "message").bind fun m =>
      (getStr fields "details").map fun d => (m, d)
  | _ => none

/-- Go `Client.ConvertHTTPError`: nil below the 400 threshold, else a
structured error whose message is the body's `message` field when the
body parses and that field is non-empty, and the standard status text
otherwise; `details` is carried alongside. -/
def ConvertHTTPError (resp : HttpResponse) : Option Error :=
  if resp.statusCode < HTTPErrorThreshold then none
  else
    let base : Error := ⟨resp.statusCode, statusText resp.statusCode, ""⟩
    match resp.body with
    | none => some base
    | some j =>
      match decodeErrorResponse j with
      | none => some base
      | some (m, d) =>
        some ⟨resp.statusCode, if m ≠ "" then m else base.Message, d⟩

/-- Go `Client.Get` (via `makeRequest`), wrapping a transport failure as
`request failed`. -/
def clientGet (fetch : Fetch) (path : String) : Except GoErr HttpResponse :=
  match fetch path with
  | .error e => .error (.wrap "request failed" (.msg e))
  | .ok resp => .ok resp

/-! URL construction: Go `url.PathEscape`, `url.QueryEscape` and
`url.Values.Encode` (keys sorted, values query-escaped). -/

/-- Uppercase hexadecimal digit. -/
def hexDigit (n : Nat) : Char :=
  if n < 10 then Char.ofNat (48 + n) else Char.ofNat (55 + n)

/-- Percent-encoding of one byte. -/
def percentByte (b : Nat) : List Char :=
  ['%', hexDigit (b / 16), hexDigit (b % 16)]

/-- Characters Go leaves unescaped in a path segment. -/
def pathSegmentUnescaped (c : Char) : Bool :=
  c.isAlpha || c.isDigit || c == '-' || c == '_' || c == '.' || c == '~' ||
  c == '$' || c == '&' || c == '+' || c == ':' || c == '=' || c == '@'

/-- Go `url.PathEscape`. -/
def pathEscape (s : String) : String :=
  ⟨s.data.flatMap fun c =>
    if pathSegmentUnescaped c then [c] else (utf8Bytes c).flatMap percentByte⟩

/-- Characters Go leaves unescaped in a query component. -/
def queryUnescaped (c : Char) : Bool :=
  c.isAlpha || c.isDigit || c == '-' || c == '_' || c == '.' || c == '~'

/-- Go `url.QueryEscape` (space becomes `+`). -/
def queryEscape (s : String) : String :=
  ⟨s.data.flatMap fun c =>
    if c == ' ' then ['+']
    else if queryUnescaped c then [c]
    else (utf8Bytes c).flatMap percentByte⟩

/-- Lexicographic comparison of rune lists. -/
def lexLe : List Char → List Char → Bool
  | [], _ => true
  | _ :: _, [] => false
  | x :: xs, y :: ys => if x < y then true else if y < x then false else lexLe xs ys

/-- Lexicographic comparison of strings. -/
def strLe (a b : String) : Bool := lexLe a.data b.data

/-- Insertion step of the key sort in `url.Values.Encode`. -/
def insertParam (p : String × String) : List (String × String) → List (String × String)
  | [] => [p]
  | q :: qs => if strLe p.1 q.1 then p :: q :: qs else q :: insertParam p qs

/-- Sort query parameters by key, as `url.Values.Encode` does. -/
def sortParams (l : List (String × String)) : List (String × String) :=
  l.foldr insertParam []

/-- Go `url.Values.Encode`: sorted `key=value` pairs joined with `&`,
both sides query-escaped. -/
def encodeParams (params : List (String × String)) : String :=
  goJoin "&" ((sortParams params).map fun p => queryEscape p.1 ++ "=" ++ queryEscape p.2)

/-! Option and result types from the api types source. -/

/-- Go `api.ListOptions` (types source): limit/offset pagination. -/
structure ListOptions where
  Limit : Int
  Offset : Int

/-- Go `api.SearchOptions`. -/
structure SearchOptions where
  Query : String
  Limit : Int
  Offset : Int

/-- Go `api.PaginatedResponse[T]`. -/
structure PaginatedResponse (T : Type) where
  Data : List T
  TotalCount : Int
  Page : Int
  PageSize : Int
  HasMore : Bool

/-- Go `api.ListOptions` from the applications source (page/page-size
pagination, a distinct type in that file). -/
structure AppListOptions where
  Page : Int
  PageSize : Int
  Limit : Int

/-- Go `api.ApplicationList` from the applications source. -/
structure ApplicationList where
  Applications : List models.Application
  Page : Int
  PageSize : Int
  TotalCount : Int
  HasMore : Bool

/-- Go `api.Release` from the types source. -/
structure ApiRelease where
  ID : String
  Sequence : Int
  Version : String
  ReleaseNotes : String
  Required : Bool
  Status : String
  CreatedAt : GoTime
  UpdatedAt : GoTime

/-- Go `api.Channel` from the types source. -/
structure ApiChannel where
  ID : String
  Name : String
  Slug : String
  Description : String
  IsDefault : Bool
  CreatedAt : GoTime
  UpdatedAt : GoTime

/-- Go `api.Customer` from the types source. -/
structure ApiCustomer where
  ID : String
  Name : String
  Email : String
  Type' : String
  Status : String
  LicenseID : String
  ChannelID : String
  ChannelName : String
  CreatedAt : GoTime
  UpdatedAt : GoTime

/-! Decoders for the api result types. -/

/-- Decode each element of a JSON array. -/
def decodeJsonList {T : Type} (dec : Json → Option T) : List Json → Option (List T)
  | [] => some []
  | j :: rest =>
    (dec j).bind fun x => (decodeJsonList dec rest).map fun xs => x :: xs

/-- Go unmarshal into a slice. -/
def decodeArr {T : Type} (dec : Json → Option T) : Json → Option (List T)
  | .null => some []
  | .arr xs => decodeJsonList dec xs
  | _ => none

/-- Slice-valued struct field, missing key giving a nil slice. -/
def getArr {T : Type} (dec : Json → Option T) (fields : List (String × Json))
    (key : String) : Option (List T) :=
  match jLookup fields key with
  | none => some []
  | some j => decodeArr dec j

/-- Go unmarshal into `api.Release`. -/
def decodeApiRelease : Json → Option ApiRelease
  | .null => some ⟨"", 0, "", "", false, "", 0, 0⟩
  | .obj fields =>
    (getStr fields "id").bind fun id =>
    (getInt fields "sequence").bind fun sequence =>
    (getStr fields "version").bind fun version =>
    (getStr fields "release_notes").bind fun releaseNotes =>
    (getBool fields "required").bind fun required =>
    (getStr fields "status").bind fun status =>
    (getTime fields "created_at").bind fun createdAt =>
    (getTime fields "updated_at").bind fun updatedAt =>
    some ⟨id, sequence, version, releaseNotes, required, status, createdAt, updatedAt⟩
  | _ => none

/-- Go unmarshal into `api.Channel`. -/
def decodeApiChannel : Json → Option ApiChannel
  | .null => some ⟨"", "", "", "", false, 0, 0⟩
  | .obj fields =>
    (getStr fields "id").bind fun id =>
    (getStr fields "name").bind fun name =>
    (getStr fields "slug").bind fun slug =>
    (getStr fields "description").bind fun description =>
    (getBool fields "is_default").bind fun isDefault =>
    (getTime fields "created_at").bind fun createdAt =>
    (getTime fields "updated_at").bind fun updatedAt =>
    some ⟨id, name, slug, description, isDefault, createdAt, updatedAt⟩
  | _ => none

/-- Go unmarshal into `api.Customer`. -/
def decodeApiCustomer : Json → Option ApiCustomer
  | .null => some ⟨"", "", "", "", "", "", "", "", 0, 0⟩
  | .obj fields =>
    (getStr fields "id").bind fun id =>
    (getStr fields "name").bind fun name =>
    (getStr fields "email").bind fun email =>
    (getStr fields "type").bind fun typ =>
    (getStr fields "status").bind fun status =>
    (getStr fields "license_id").bind fun licenseID =>
    (getStr fields "channel_id").bind fun channelID =>
    (getStr fields "channel_name").bind fun channelName =>
    (getTime fields "created_at").bind fun createdAt =>
    (getTime fields "updated_at").bind fun updatedAt =>
    some ⟨id, name, email, typ, status, licenseID, channelID, channelName, createdAt,
      updatedAt⟩
  | _ => none

/-- Go unmarshal into `api.PaginatedResponse[T]`. -/
def decodePaginatedJson {T : Type} (dec : Json → Option T) : Json → Option (PaginatedResponse T)
  | .null => some ⟨[], 0, 0, 0, false⟩
  | .obj fields =>
    (getArr dec fields "data").bind fun data =>
    (getInt fields "total_count").bind fun totalCount =>
    (getInt fields "page").bind fun page =>
    (getInt fields "page_size").bind fun pageSize =>
    (getBool fields "has_more").bind fun hasMore =>
    some ⟨data, totalCount, page, pageSize, hasMore⟩
  | _ => none

/-- Decode a read response body into a paginated result; an unreadable
or unparseable body fails. -/
def decodePaginated {T : Type} (dec : Json → Option T) :
    Option Json → Option (PaginatedResponse T)
  | none => none
  | some j => decodePaginatedJson dec j

/-- Decode a body of the form `{"<key>": {...}}` (the envelope used by
the Get endpoints); a missing key leaves the zero value, which each
entity decoder produces on `null`. -/
def decodeEnvelope {T : Type} (key : String) (dec : Json → Option T) :
    Option Json → Option T
  | none => none
  | some (.obj fields) =>
    match jLookup fields key with
    | none => dec .null
    | some j => dec j
  | some .null => dec .null
  | some _ => none

/-- Go unmarshal into `api.ApplicationList` (applications source). -/
def decodeApplicationList : Option Json → Option ApplicationList
  | none => none
  | some .null => some ⟨[], 0, 0, 0, false⟩
  | some (.obj fields) =>
    (getArr models.decodeApplication fields "applications").bind fun apps =>
    (getInt fields "page").bind fun page =>
    (getInt fields "page_size").bind fun pageSize =>
    (getInt fields "total_count").bind fun totalCount =>
    (getBool fields "has_more").bind fun hasMore =>
    some ⟨apps, page, pageSize, totalCount, hasMore⟩
  | some _ => none

/-- The `ConvertHTTPError` result as an error value, as the
applications-service code wraps it (there the status is already known to
be at least 400, so the conversion never yields nil). -/
def convertAsErr (resp : HttpResponse) : GoErr :=
  match ConvertHTTPError resp with
  | some e => .api e
  | none => .msg ""

end Repl.api

namespace Repl.api

open Repl

/-! Release service, translated from the releases source file. -/

/-- Request path of `ReleaseService.List`. -/
def releasesListPath (appID : String) (opts : Option ListOptions) : String :=
  let path := "/v3/app/" ++ pathEscape appID ++ "/releases"
  let params :=
    match opts with
    | none => []
    | some o =>
      (if o.Limit > 0 then [("limit", toString o.Limit)] else []) ++
      (if o.Offset > 0 then [("offset", toString o.Offset)] else [])
  if params.length > 0 then path ++ "?" ++ encodeParams params else path

/-- Go `ReleaseService.List`; besides the result it reports the GET
paths issued. -/
def ReleaseService.list (fetch : Fetch) (appID : String) (opts : Option ListOptions) :
    Except GoErr (PaginatedResponse ApiRelease) × List String :=
  if appID = "" then (.error (.msg "application ID is required"), [])
  else
    let path := releasesListPath appID opts
    match clientGet fetch path with
    | .error e => (.error (.wrap "failed to list releases" e), [path])
    | .ok resp =>
      match ConvertHTTPError resp with
      | some apiErr => (.error (.api apiErr), [path])
      | none =>
        match decodePaginated decodeApiRelease resp.body with
        | none => (.error (.msg "failed to unmarshal response"), [path])
        | some result => (.ok result, [path])

/-- Go `ReleaseService.Get`. -/
def ReleaseService.get (fetch : Fetch) (appID releaseID : String) :
    Except GoErr ApiRelease × List String :=
  if appID = "" then (.error (.msg "application ID is required"), [])
  else if releaseID = "" then (.error (.msg "release ID is required"), [])
  else
    let path := "/v3/app/" ++ pathEscape appID ++ "/release/" ++ pathEscape releaseID
    match clientGet fetch path with
    | .error e => (.error (.wrap "failed to get release" e), [path])
    | .ok resp =>
      match ConvertHTTPError resp with
      | some apiErr => (.error (.api apiErr), [path])
      | none =>
        match decodeEnvelope "release" decodeApiRelease resp.body with
        | none => (.error (.msg "failed to unmarshal response"), [path])
        | some result => (.ok result, [path])

/-- Request path of `ReleaseService.Search`: a dedicated search
endpoint with a `q` query parameter. -/
def releasesSearchPath (appID : String) (o : SearchOptions) : String :=
  let params := [("q", o.Query)] ++
    (if o.Limit > 0 then [("limit", toString o.Limit)] else []) ++
    (if o.Offset > 0 then [("offset", toString o.Offset)] else [])
  "/v3/app/" ++ pathEscape appID ++ "/releases/search" ++ "?" ++ encodeParams params

/-- Go `ReleaseService.Search`: note it rejects only a nil-options or
empty query (no whitespace trimming) and then issues a server-side
search request. -/
def ReleaseService.search (fetch : Fetch) (appID : String) (opts : Option SearchOptions) :
    Except GoErr (PaginatedResponse ApiRelease) × List String :=
  if appID = "" then (.error (.msg "application ID is required"), [])
  else
    match opts with
    | none => (.error (.msg "search query is required"), [])
    | some o =>
      if o.Query = "" then (.error (.msg "search query is required"), [])
      else
        let path := releasesSearchPath appID o
        match clientGet fetch path with
        | .error e => (.error (.wrap "failed to search releases" e), [path])
        | .ok resp =>
          match ConvertHTTPError resp with
          | some apiErr => (.error (.api apiErr), [path])
          | none =>
            match decodePaginated decodeApiRelease resp.body with
            | none => (.error (.msg "failed to unmarshal response"), [path])
            | some result => (.ok result, [path])

/-! Channel service, translated from its source (client-side search). -/

/-- Request path of `ChannelService.List`. -/
def channelsListPath (appID : String) (opts : Option ListOptions) : String :=
  let path := "/v3/app/" ++ pathEscape appID ++ "/channels"
  let params :=
    match opts with
    | none => []
    | some o =>
      (if o.Limit > 0 then [("limit", toString o.Limit)] else []) ++
      (if o.Offset > 0 then [("offset", toString o.Offset)] else [])
  if params.length > 0 then path ++ "?" ++ encodeParams params else path

/-- Go `ChannelService.List`. -/
def ChannelService.list (fetch : Fetch) (appID : String) (opts : Option ListOptions) :
    Except GoErr (PaginatedResponse ApiChannel) × List String :=
  if appID = "" then (.error (.msg "application ID is required"), [])
  else
    let path := channelsListPath appID opts
    match clientGet fetch path with
    | .error e => (.error (.wrap "failed to list channels" e), [path])
    | .ok resp =>
      match ConvertHTTPError resp with
      | some apiErr => (.error (.api apiErr), [path])
      | none =>
        match decodePaginated decodeApiChannel resp.body with
        | none => (.error (.msg "failed to unmarshal response"), [path])
        | some result => (.ok result, [path])

/-- Go `ChannelService.Get`. -/
def ChannelService.get (fetch : Fetch) (appID channelID : String) :
    Except GoErr ApiChannel × List String :=
  if appID = "" then (.error (.msg "application ID is required"), [])
  else if channelID = "" then (.error (.msg "channel ID is required"), [])
  else
    let path := "/v3/app/" ++ pathEscape appID ++ "/channel/" ++ pathEscape channelID
    match clientGet fetch path with
    | .error e => (.error (.wrap "failed to get channel" e), [path])
    | .ok resp =>
      match ConvertHTTPError resp with
      | some apiErr => (.error (.api apiErr), [path])
      | none =>
        match decodeEnvelope "channel" decodeApiChannel resp.body with
        | none => (.error (.msg "failed to unmarshal response"), [path])
        | some result => (.ok result, [path])

/-- The channel search predicate: case-insensitive substring match
against name, slug and description. -/
def channelMatches (queryLower : String) (c : ApiChannel) : Bool :=
  goContains (goToLower c.Name) queryLower ||
  goContains (goToLower c.Slug) queryLower ||
  goContains (goToLower c.Description) queryLower

/-- Go `ChannelService.Search`: no dedicated endpoint; lists with limit
100 and filters client-side. -/
def ChannelService.search (fetch : Fetch) (appID : String) (opts : Option SearchOptions) :
    Except GoErr (PaginatedResponse ApiChannel) × List String :=
  if appID = "" then (.error (.msg "application ID is required"), [])
  else
    match opts with
    | none => (.error (.msg "search query is required"), [])
    | some o =>
      if goTrimSpace o.Query = "" then (.error (.msg "search query is required"), [])
      else
        let listOpts : ListOptions := ⟨100, o.Offset⟩
        match ChannelService.list fetch appID (some listOpts) with
        | (.error e, reqs) => (.error (.wrap "failed to list channels for search" e), reqs)
        | (.ok channels, reqs) =>
          let queryLower := goToLower (goTrimSpace o.Query)
          let filtered := channels.Data.filter (channelMatches queryLower)
          let limited :=
            if o.Limit > 0 ∧ (filtered.length : Int) > o.Limit then filtered.take o.Limit.toNat
            else filtered
          (.ok ⟨limited, (limited.length : Int), 1, (limited.length : Int), false⟩, reqs)

/-! Customer service, translated from its source (client-side search). -/

/-- Request path of `CustomerService.List`. -/
def customersListPath (appID : String) (opts : Option ListOptions) : String :=
  let path := "/v3/app/" ++ pathEscape appID ++ "/customers"
  let params :=
    match opts with
    | none => []
    | some o =>
      (if o.Limit > 0 then [("limit", toString o.Limit)] else []) ++
      (if o.Offset > 0 then [("offset", toString o.Offset)] else [])
  if params.length > 0 then path ++ "?" ++ encodeParams params else path

/-- Go `CustomerService.List`. -/
def CustomerService.list (fetch : Fetch) (appID : String) (opts : Option ListOptions) :
    Except GoErr (PaginatedResponse ApiCustomer) × List String :=
  if appID = "" then (.error (.msg "application ID is required"), [])
  else
    let path := customersListPath appID opts
    match clientGet fetch path with
    | .error e => (.error (.wrap "failed to list customers" e), [path])
    | .ok resp =>
      match ConvertHTTPError resp with
      | some apiErr => (.error (.api apiErr), [path])
      | none =>
        match decodePaginated decodeApiCustomer resp.body with
        | none => (.error (.msg "failed to unmarshal response"), [path])
        | some result => (.ok result, [path])

/-- Go `CustomerService.Get`. -/
def CustomerService.get (fetch : Fetch) (appID customerID : String) :
    Except GoErr ApiCustomer × List String :=
  if appID = "" then (.error (.msg "application ID is required"), [])
  else if customerID = "" then (.error (.msg "customer ID is required"), [])
  else
    let path := "/v3/app/" ++ pathEscape appID ++ "/customer/" ++ pathEscape customerID
    match clientGet fetch path with
    | .error e => (.error (.wrap "failed to get customer" e), [path])
    | .ok resp =>
      match ConvertHTTPError resp with
      | some apiErr => (.error (.api apiErr), [path])
      | none =>
        match decodeEnvelope "customer" decodeApiCustomer resp.body with
        | none => (.error (.msg "failed to unmarshal response"), [path])
        | some result => (.ok result, [path])

/-- The customer search predicate: case-insensitive substring match
against name, email, type, status, license id and channel name. -/
def customerMatches (queryLower : String) (c : ApiCustomer) : Bool :=
  goContains (goToLower c.Name) queryLower ||
  goContains (goToLower c.Email) queryLower ||
  goContains (goToLower c.Type') queryLower ||
  goContains (goToLower c.Status) queryLower ||
  goContains (goToLower c.LicenseID) queryLower ||
  goContains (goToLower c.ChannelName) queryLower

/-- Go `CustomerService.Search`: no dedicated endpoint; lists with
limit 100 and filters client-side. -/
def CustomerService.search (fetch : Fetch) (appID : String) (opts : Option SearchOptions) :
    Except GoErr (PaginatedResponse ApiCustomer) × List String :=
  if appID = "" then (.error (.msg "application ID is required"), [])
  else
    match opts with
    | none => (.error (.msg "search query is required"), [])
    | some o =>
      if goTrimSpace o.Query = "" then (.error (.msg "search query is required"), [])
      else
        let listOpts : ListOptions := ⟨100, o.Offset⟩
        match CustomerService.list fetch appID (some listOpts) with
        | (.error e, reqs) => (.error (.wrap "failed to list customers for search" e), reqs)
        | (.ok customers, reqs) =>
          let queryLower := goToLower (goTrimSpace o.Query)
          let filtered := customers.Data.filter (customerMatches queryLower)
          let limited :=
            if o.Limit > 0 ∧ (filtered.length : Int) > o.Limit then filtered.take o.Limit.toNat
            else filtered
          (.ok ⟨limited, (limited.length : Int), 1, (limited.length : Int), false⟩, reqs)

/-! Application service, translated from the applications source file
(server-side search via a `search` query parameter). -/

/-- Request path of `ApplicationService.ListApplications`. -/
def appsListPath (opts : Option AppListOptions) : String :=
  match opts with
  | none => "/vendor/v3/apps"
  | some o =>
    let params :=
      (if o.Page > 0 then [("page", toString o.Page)] else []) ++
      (if o.PageSize > 0 then [("page_size", toString o.PageSize)] else []) ++
      (if o.Limit > 0 then [("limit", toString o.Limit)] else [])
    if params.length > 0 then "/vendor/v3/apps?" ++ encodeParams params
    else "/vendor/v3/apps"

/-- Go `ApplicationService.ListApplications`. -/
def ApplicationService.listApplications (fetch : Fetch) (opts : Option AppListOptions) :
    Except GoErr ApplicationList × List String :=
  let path := appsListPath opts
  match clientGet fetch path with
  | .error e => (.error (.wrap "failed to list applications" e), [path])
  | .ok resp =>
    if 400 ≤ resp.statusCode then (.error (.wrap "API error" (convertAsErr resp)), [path])
    else
      match decodeApplicationList resp.body with
      | none => (.error (.msg "failed to decode response"), [path])
      | some result => (.ok result, [path])

/-- Go `ApplicationService.GetApplication` (note: the id is spliced
into the path without escaping in this source file). -/
def ApplicationService.getApplication (fetch : Fetch) (id : String) :
    Except GoErr models.Application × List String :=
  if id = "" then (.error (.msg "application ID is required"), [])
  else
    let path := "/vendor/v3/app/" ++ id
    match clientGet fetch path with
    | .error e => (.error (.wrap "failed to get application" e), [path])
    | .ok resp =>
      if 400 ≤ resp.statusCode then (.error (.wrap "API error" (convertAsErr resp)), [path])
      else
        match resp.body with
        | none => (.error (.msg "failed to decode response"), [path])
        | some j =>
          match models.decodeApplication j with
          | none => (.error (.msg "failed to decode response"), [path])
          | some app => (.ok app, [path])

/-- Request path of `ApplicationService.SearchApplications`: the list
endpoint with a `search` query parameter. -/
def appsSearchPath (query : String) (opts : Option AppListOptions) : String :=
  let params := [("search", query)] ++
    (match opts with
     | none => []
     | some o =>
       (if o.Page > 0 then [("page", toString o.Page)] else []) ++
       (if o.PageSize > 0 then [("page_size", toString o.PageSize)] else []) ++
       (if o.Limit > 0 then [("limit", toString o.Limit)] else []))
  "/vendor/v3/apps" ++ "?" ++ encodeParams params

/-- Go `ApplicationService.SearchApplications`: rejects an empty or
whitespace-only query before any network call, then issues a
server-side search request. -/
def ApplicationService.searchApplications (fetch : Fetch) (query : String)
    (opts : Option AppListOptions) : Except GoErr ApplicationList × List String :=
  if goTrimSpace query = "" then (.error (.msg "search query is required"), [])
  else
    let path := appsSearchPath query opts
    match clientGet fetch path with
    | .error e => (.error (.wrap "failed to search applications" e), [path])
    | .ok resp =>
      if 400 ≤ resp.statusCode then (.error (.wrap "API error" (convertAsErr resp)), [path])
      else
        match decodeApplicationList resp.body with
        | none => (.error (.msg "failed to decode response"), [path])
        | some result => (.ok result, [path])

end Repl.api

namespace Repl.api

open Repl

lemma code_subList_render (e : Error) :
    SubList (toString e.StatusCode).data (e.Error).data := by
  rw [Error.Error]
  split <;>
  · simp only [String.data_append, List.append_assoc]
    exact ⟨("API error (status ").data, _, rfl⟩

/-- C5 (amended): `ConvertHTTPError` returns nil exactly below status
400; at 400 and above it returns an error carrying the status code,
whose message comes from the body's `message` field when the body is
JSON with a non-empty message (details carried alongside) and otherwise
falls back to the standard status text; and the rendered error text
contains the status code. -/
theorem convertHTTPError_classification (resp : HttpResponse) :
    (resp.statusCode < 400 → ConvertHTTPError resp = none) ∧
    (400 ≤ resp.statusCode →
      ∃ e, ConvertHTTPError resp = some e ∧
        e.StatusCode = resp.statusCode ∧
        SubList (toString resp.statusCode).data (e.Error).data ∧
        (∀ j m d, resp.body = some j → decodeErrorResponse j = some (m, d) →
          e.Message = (if m = "" then statusText resp.statusCode else m) ∧ e.Details = d) ∧
        ((resp.body.elim True fun j => decodeErrorResponse j = none) →
          e.Message = statusText resp.statusCode ∧ e.Details = "")) := by
  constructor
  · intro h
    simp [ConvertHTTPError, HTTPErrorThreshold, h]
  · intro h
    have hnot : ¬ (resp.statusCode < HTTPErrorThreshold) := by
      rw [HTTPErrorThreshold]
      omega
    rw [ConvertHTTPError, if_neg hnot]
    rcases hb : resp.body with _ | j
    · simp only [hb]
      refine ⟨_, rfl, rfl, code_subList_render _, ?_, ?_⟩
      · intro j m d hj hdec
        cases hj
      · intro _
        exact ⟨rfl, rfl⟩
    · simp only [hb]
      rcases hd : decodeErrorResponse j with _ | ⟨m, d⟩
      · simp only [hd]
        refine ⟨_, rfl, rfl, code_subList_render _, ?_, ?_⟩
        · intro j' m d hj hdec
          injection hj with hj
          subst hj
          rw [hd] at hdec
          cases hdec
        · intro _
          exact ⟨rfl, rfl⟩
      · simp only [hd]
        refine ⟨_, rfl, rfl, code_subList_render _, ?_, ?_⟩
        · intro j' m' d' hj hdec
          injection hj with hj
          subst hj
          rw [hd] at hdec
          injection hdec with hdec
          injection hdec with h1 h2
          subst h1
          subst h2
          constructor
          · by_cases hm : m = "" <;> simp [hm]
          · rfl
        · intro hcon
          simp only [Option.elim_some] at hcon
          rw [hd] at hcon
          cases hcon

/-- C5 counterexample: a 301 response is not a 2xx success, yet
`ConvertHTTPError` returns nil for it (the threshold in the code is
status 400, not non-2xx). -/
theorem convertHTTPError_non2xx_counterexample :
    ((301 : Nat) < 200 ∨ 299 < (301 : Nat)) ∧
      ConvertHTTPError ⟨301, none⟩ = none :=
  ⟨Or.inr (by decide), rfl⟩

/-- C5 witness: the classification applied to a concrete 404 response
with a `message` body, discharging the status hypothesis. -/
theorem convertHTTPError_classification_witness :
    ∃ e, ConvertHTTPError ⟨404, some (.obj [("message", Json.str "Not Found")])⟩ = some e ∧
      e.StatusCode = 404 ∧
      SubList (toString (404 : Nat)).data (e.Error).data := by
  obtain ⟨e, h1, h2, h3, -, -⟩ :=
    (convertHTTPError_classification
      ⟨404, some (.obj [("message", Json.str "Not Found")])⟩).2 (by decide)
  exact ⟨e, h1, h2, h3⟩

/-- C4: every Get operation with an empty required identifier returns a
descriptive error before any network request (the transport oracle is
never consulted and the request log is empty). -/
theorem get_empty_id_fails_without_network :
    (∀ (fetch : Fetch) (id : String), id = "" →
      ApplicationService.getApplication fetch id =
        (.error (.msg "application ID is required"), [])) ∧
    (∀ (fetch : Fetch) (appID releaseID : String),
      (appID = "" → ReleaseService.get fetch appID releaseID =
        (.error (.msg "application ID is required"), [])) ∧
      (appID ≠ "" → releaseID = "" → ReleaseService.get fetch appID releaseID =
        (.error (.msg "release ID is required"), []))) ∧
    (∀ (fetch : Fetch) (appID channelID : String),
      (appID = "" → ChannelService.get fetch appID channelID =
        (.error (.msg "application ID is required"), [])) ∧
      (appID ≠ "" → channelID = "" → ChannelService.get fetch appID channelID =
        (.error (.msg "channel ID is required"), []))) ∧
    (∀ (fetch : Fetch) (appID customerID : String),
      (appID = "" → CustomerService.get fetch appID customerID =
        (.error (.msg "application ID is required"), [])) ∧
      (appID ≠ "" → customerID = "" → CustomerService.get fetch appID customerID =
        (.error (.msg "customer ID is required"), []))) := by
  refine ⟨fun fetch id h => ?_, fun fetch a r => ⟨fun h => ?_, fun h1 h2 => ?_⟩,
    fun fetch a c => ⟨fun h => ?_, fun h1 h2 => ?_⟩,
    fun fetch a c => ⟨fun h => ?_, fun h1 h2 => ?_⟩⟩
  · rw [ApplicationService.getApplication, if_pos h]
  · rw [ReleaseService.get, if_pos h]
  · rw [ReleaseService.get, if_neg h1, if_pos h2]
  · rw [ChannelService.get, if_pos h]
  · rw [ChannelService.get, if_neg h1, if_pos h2]
  · rw [CustomerService.get, if_pos h]
  · rw [CustomerService.get, if_neg h1, if_pos h2]

/-- C4 witness: the theorem applied to concrete empty identifiers over
a transport that would report any contact. -/
theorem get_empty_id_fails_without_network_witness :
    ApplicationService.getApplication (fun _ => .error "down") "" =
      (.error (.msg "application ID is required"), []) ∧
    ReleaseService.get (fun _ => .error "down") "app" "" =
      (.error (.msg "release ID is required"), []) :=
  ⟨get_empty_id_fails_without_network.1 (fun _ => .error "down") "" rfl,
   (get_empty_id_fails_without_network.2.1 (fun _ => .error "down") "app" "").2
     (by decide) rfl⟩

/-- C3 (amended): the Application, Channel and Customer search
operations reject an empty or whitespace-only query before any network
request; the Release search rejects nil options or an empty query
before any network request, but does not trim whitespace. -/
theorem search_blank_query_fails_without_network :
    (∀ (fetch : Fetch) (query : String) (opts : Option AppListOptions),
      goTrimSpace query = "" →
      ApplicationService.searchApplications fetch query opts =
        (.error (.msg "search query is required"), [])) ∧
    (∀ (fetch : Fetch) (appID : String), appID ≠ "" →
      ChannelService.search fetch appID none =
        (.error (.msg "search query is required"), []) ∧
      ∀ o : SearchOptions, goTrimSpace o.Query = "" →
        ChannelService.search fetch appID (some o) =
          (.error (.msg "search query is required"), [])) ∧
    (∀ (fetch : Fetch) (appID : String), appID ≠ "" →
      CustomerService.search fetch appID none =
        (.error (.msg "search query is required"), []) ∧
      ∀ o : SearchOptions, goTrimSpace o.Query = "" →
        CustomerService.search fetch appID (some o) =
          (.error (.msg "search query is required"), [])) ∧
    (∀ (fetch : Fetch) (appID : String), appID ≠ "" →
      ReleaseService.search fetch appID none =
        (.error (.msg "search query is required"), []) ∧
      ∀ o : SearchOptions, o.Query = "" →
        ReleaseService.search fetch appID (some o) =
          (.error (.msg "search query is required"), [])) := by
  refine ⟨fun fetch query opts h => ?_, fun fetch appID h => ⟨?_, fun o hq => ?_⟩,
    fun fetch appID h => ⟨?_, fun o hq => ?_⟩, fun fetch appID h => ⟨?_, fun o hq => ?_⟩⟩
  · rw [ApplicationService.searchApplications, if_pos h]
  · simp [ChannelService.search, h]
  · simp [ChannelService.search, h, hq]
  · simp [CustomerService.search, h]
  · simp [CustomerService.search, h, hq]
  · simp [ReleaseService.search, h]
  · simp [ReleaseService.search, h, hq]

/-- C3 counterexample: a whitespace-only query passes the Release
search guard (which checks only for the empty string), so a network
request to the dedicated search endpoint is issued. -/
theorem release_search_whitespace_counterexample :
    goTrimSpace " " = "" ∧
    (ReleaseService.search (fun _ => .error "transport down") "app"
        (some ⟨" ", 0, 0⟩)).2 = ["/v3/app/app/releases/search?q=+"] :=
  ⟨by decide, by decide⟩

/-- C3 witness: the theorem applied to a whitespace-only Customer
search query and an empty Release search query. -/
theorem search_blank_query_witness :
    CustomerService.search (fun _ => .error "down") "app" (some ⟨" ", 0, 0⟩) =
      (.error (.msg "search query is required"), []) ∧
    ReleaseService.search (fun _ => .error "down") "app" (some ⟨"", 3, 4⟩) =
      (.error (.msg "search query is required"), []) :=
  ⟨(search_blank_query_fails_without_network.2.2.1 (fun _ => .error "down") "app"
      (by decide)).2 ⟨" ", 0, 0⟩ (by decide),
   (search_blank_query_fails_without_network.2.2.2 (fun _ => .error "down") "app"
      (by decide)).2 ⟨"", 3, 4⟩ rfl⟩

def searchResult {T : Type} (filtered : List T) (limit : Int) : PaginatedResponse T :=
  let limited :=
    if limit > 0 ∧ (filtered.length : Int) > limit then filtered.take limit.toNat
    else filtered
  ⟨limited, (limited.length : Int), 1, (limited.length : Int), false⟩

lemma ChannelService.list_requests_chan (fetch : Fetch) (appID : String)
    (opts : Option ListOptions) (h : appID ≠ "") :
    (ChannelService.list fetch appID opts).2 = [channelsListPath appID opts] := by
  rw [ChannelService.list, if_neg h]
  rcases hg : clientGet fetch (channelsListPath appID opts) with e | resp <;> simp only [hg]
  rcases hc : ConvertHTTPError resp with _ | e <;> simp only [hc]
  rcases hdec : decodePaginated decodeApiChannel resp.body with _ | r <;> simp only [hdec]

lemma CustomerService.list_requests_cust (fetch : Fetch) (appID : String)
    (opts : Option ListOptions) (h : appID ≠ "") :
    (CustomerService.list fetch appID opts).2 = [customersListPath appID opts] := by
  rw [CustomerService.list, if_neg h]
  rcases hg : clientGet fetch (customersListPath appID opts) with e | resp <;> simp only [hg]
  rcases hc : ConvertHTTPError resp with _ | e <;> simp only [hc]
  rcases hdec : decodePaginated decodeApiCustomer resp.body with _ | r <;> simp only [hdec]

/-- C2 (amended): Channel and Customer search issue exactly the one
List request (limit 100, caller's offset) and filter its items
client-side by the case-insensitive substring predicate over the listed
fields, truncating to the caller's limit; Release search instead issues
exactly one request to the dedicated `/releases/search` endpoint with
the query in the `q` parameter. -/
theorem search_fetch_then_filter :
    (∀ (fetch : Fetch) (appID : String) (o : SearchOptions),
      appID ≠ "" → goTrimSpace o.Query ≠ "" →
      (ChannelService.search fetch appID (some o)).2 =
        (ChannelService.list fetch appID (some ⟨100, o.Offset⟩)).2 ∧
      (ChannelService.list fetch appID (some ⟨100, o.Offset⟩)).2 =
        [channelsListPath appID (some ⟨100, o.Offset⟩)] ∧
      (∀ e, (ChannelService.list fetch appID (some ⟨100, o.Offset⟩)).1 = .error e →
        (ChannelService.search fetch appID (some o)).1 =
          .error (.wrap "failed to list channels for search" e)) ∧
      (∀ pr, (ChannelService.list fetch appID (some ⟨100, o.Offset⟩)).1 = .ok pr →
        (ChannelService.search fetch appID (some o)).1 =
          .ok (searchResult
            (pr.Data.filter (channelMatches (goToLower (goTrimSpace o.Query)))) o.Limit))) ∧
    (∀ (fetch : Fetch) (appID : String) (o : SearchOptions),
      appID ≠ "" → goTrimSpace o.Query ≠ "" →
      (CustomerService.search fetch appID (some o)).2 =
        (CustomerService.list fetch appID (some ⟨100, o.Offset⟩)).2 ∧
      (CustomerService.list fetch appID (some ⟨100, o.Offset⟩)).2 =
        [customersListPath appID (some ⟨100, o.Offset⟩)] ∧
      (∀ e, (CustomerService.list fetch appID (some ⟨100, o.Offset⟩)).1 = .error e →
        (CustomerService.search fetch appID (some o)).1 =
          .error (.wrap "failed to list customers for search" e)) ∧
      (∀ pr, (CustomerService.list fetch appID (some ⟨100, o.Offset⟩)).1 = .ok pr →
        (CustomerService.search fetch appID (some o)).1 =
          .ok (searchResult
            (pr.Data.filter (customerMatches (goToLower (goTrimSpace o.Query)))) o.Limit))) ∧
    (∀ (fetch : Fetch) (appID : String) (o : SearchOptions),
      appID ≠ "" → o.Query ≠ "" →
      (ReleaseService.search fetch appID (some o)).2 = [releasesSearchPath appID o]) := by
  refine ⟨fun fetch appID o h1 h2 => ?_, fun fetch appID o h1 h2 => ?_,
    fun fetch appID o h1 h2 => ?_⟩
  · rcases hcall : ChannelService.list fetch appID (some ⟨100, o.Offset⟩) with ⟨res, reqs⟩
    have hreq : reqs = [channelsListPath appID (some ⟨100, o.Offset⟩)] := by
      have := ChannelService.list_requests_chan fetch appID (some ⟨100, o.Offset⟩) h1
      rw [hcall] at this
      exact this
    refine ⟨?_, hreq, ?_, ?_⟩
    · simp only [ChannelService.search, if_neg h1, if_neg h2, hcall]
      rcases res with e | pr <;> rfl
    · intro e he
      simp only at he
      subst he
      simp only [ChannelService.search, if_neg h1, if_neg h2, hcall]
    · intro pr hpr
      simp only at hpr
      subst hpr
      simp only [ChannelService.search, if_neg h1, if_neg h2, hcall, searchResult]
  · rcases hcall : CustomerService.list fetch appID (some ⟨100, o.Offset⟩) with ⟨res, reqs⟩
    have hreq : reqs = [customersListPath appID (some ⟨100, o.Offset⟩)] := by
      have := CustomerService.list_requests_cust fetch appID (some ⟨100, o.Offset⟩) h1
      rw [hcall] at this
      exact this
    refine ⟨?_, hreq, ?_, ?_⟩
    · simp only [CustomerService.search, if_neg h1, if_neg h2, hcall]
      rcases res with e | pr <;> rfl
    · intro e he
      simp only at he
      subst he
      simp only [CustomerService.search, if_neg h1, if_neg h2, hcall]
    · intro pr hpr
      simp only at hpr
      subst hpr
      simp only [CustomerService.search, if_neg h1, if_neg h2, hcall, searchResult]
  · simp only [ReleaseService.search, if_neg h1, if_neg h2]
    rcases hg : clientGet fetch (releasesSearchPath appID o) with e | resp <;> simp only [hg]
    rcases hc : ConvertHTTPError resp with _ | e <;> simp only [hc]
    rcases hdec : decodePaginated decodeApiRelease resp.body with _ | r <;> simp only [hdec]

/-- C2 counterexample: with a concrete transport, the Release search
issues one request, and it goes to the dedicated search endpoint, not
to the releases List endpoint the claim prescribes. -/
theorem release_search_dedicated_endpoint_counterexample :
    (ReleaseService.search (fun _ => .error "transport down") "app"
        (some ⟨"x", 0, 0⟩)).2 = ["/v3/app/app/releases/search?q=x"] ∧
    "/v3/app/app/releases/search?q=x" ≠
      channelsListPath "app" (some ⟨100, 0⟩) ∧
    "/v3/app/app/releases/search?q=x" ≠ releasesListPath "app" (some ⟨100, 0⟩) :=
  ⟨by decide, by decide, by decide⟩

/-- C2 witness: the theorem applied to a concrete Customer search over
a transport returning one matching and one non-matching customer. -/
theorem search_fetch_then_filter_witness :
    (CustomerService.search (fun _ => .error "down") "app" (some ⟨"abc", 0, 0⟩)).2 =
      (CustomerService.list (fun _ => .error "down") "app" (some ⟨100, 0⟩)).2 :=
  ((search_fetch_then_filter.2.1 (fun _ => .error "down") "app" ⟨"abc", 0, 0⟩
    (by decide) (by decide)).1)

end Repl.api
